import Mathlib

/-!
# Retry engine (`pkg/retry/retry.go`)

A shallow embedding of the retry executor `Do`, its two flavour variants
`Do_returnsOnlyError` and `Do_returnsValueAndError`, the delay clamp `getDelay`,
the error aggregator `Error` with its rendering `Error.Error`, and the
unrecoverable-error wrapper.

Modelling conventions.

* A Go `error` interface value is `Option GoError`; `none` is the nil interface.
* Go `uint` is a natural number below `uintSize`; `n++` and `attempts-1` wrap
  modulo `uintSize`. The theorems take `config.attempts < uintSize` as the hypothesis
  that `attempts` is a value of that type.
* `make(Error, n)` panics (`makeslice: len out of range`) when `n` is more than
  `maxErrorLen`, the largest number of `error` values the runtime accepts in one
  slice; an accepted allocation is taken to succeed.
* `time.Duration` and `int` carry no arithmetic here and are integers.
* A run-time panic is an explicit `Panic` value.
* The wrapped operation is a closure with its own state; it is given as the
  stream of the results of its successive invocations (index = number of earlier
  invocations).
* `onRetry` and `time.Sleep` only act on the outside world; every invocation of the
  operation, every call of `onRetry` and every sleep is recorded, in the order in
  which they happen, in the `Trace` of the run.
* The `for` loop is run on fuel; `Do` supplies `config.attempts` units, and the
  theorems show that this is always enough.
* `Do` is applied to the configuration that results from the package defaults
  and the per-call options.
-/

namespace Retry

/-- Number of values of the Go type `uint` (64-bit platforms). -/
def uintSize : Nat := 18446744073709551616

/-- Subtraction on `uint`, wrapping modulo `uintSize`. -/
def uintSub (a b : Nat) : Nat := (a + uintSize - b % uintSize) % uintSize

/-- Increment on `uint` (`n++`), wrapping modulo `uintSize`. -/
def uintSucc (n : Nat) : Nat := (n + 1) % uintSize

/-- Values of `time.Duration`. -/
abbrev Duration := Int

deriving instance DecidableEq for Except

/-- Run-time panics of the Go runtime that this code can raise. -/
inductive Panic where
  | indexOutOfRange (index length : Nat)
  | nilDereference
  | makesliceLenOutOfRange (len : Nat)
  deriving DecidableEq, Repr

/-- A non-nil value of the interface `error`.
`plain msg` is a value of any dynamic type other than `unrecoverableError`, whose
`Error()` method returns `msg`; `unrecoverable inner` is `unrecoverableError{inner}`
with a non-nil embedded error and `unrecoverableNil` is `unrecoverableError{nil}`. -/
inductive GoError where
  | plain (msg : String)
  | unrecoverableNil
  | unrecoverable (inner : GoError)
  deriving DecidableEq, Repr

/-- The method `Error()` of an error value. On `unrecoverableError` it is the promoted
method of the embedded error, which dereferences nil when nothing is embedded. -/
def GoError.Error : GoError → Except Panic String
  | .plain msg => .ok msg
  | .unrecoverableNil => .error .nilDereference
  | .unrecoverable inner => inner.Error

/-- The function `Unrecoverable` wraps an error in `unrecoverableError`. -/
def Unrecoverable (err : Option GoError) : GoError :=
  match err with
  | none => .unrecoverableNil
  | some e => .unrecoverable e

/-- The function `IsRecoverable` checks that the error is not an instance of `unrecoverableError`. -/
def IsRecoverable (err : GoError) : Bool :=
  match err with
  | .plain _ => true
  | .unrecoverableNil => false
  | .unrecoverable _ => false

/-- The function `unpackUnrecoverable` returns the embedded error of an `unrecoverableError` and
any other error unchanged. -/
def unpackUnrecoverable (err : GoError) : Option GoError :=
  match err with
  | .plain msg => some (.plain msg)
  | .unrecoverableNil => none
  | .unrecoverable inner => some inner

/-- The type `Error`: a slice of errors, one slot per attempt. -/
abbrev Error := List (Option GoError)

/-- Modelled from the spec: the struct `Config` is declared outside `retry.go`; its
fields are the ones `retry.go` reads (`attempts`, `delay`, `maxJitter`, `maxDelay`,
`retryIf`, `lastErrorOnly`). The fields `delayType` and `onRetry` are functions; the
delay strategy takes the configuration itself as an argument and is therefore passed
next to the configuration, and `onRetry` is recorded in the trace. -/
structure Config where
  attempts : Nat
  delay : Duration
  maxJitter : Duration
  maxDelay : Duration
  retryIf : GoError → Bool
  lastErrorOnly : Bool

/-- The type of the field `config.delayType`: `func(n uint, config *Config) time.Duration`. -/
abbrev DelayTypeFunc := Nat → Config → Duration

/-- The type `RetryableFunc`: `func() (string, int, error)`, as the stream of its results. -/
abbrev RetryableFunc := Nat → String × Int × Option GoError

/-- The type `RetryableFuncWithErrOnly`: `func() error`, as the stream of its results. -/
abbrev RetryableFuncWithErrOnly := Nat → Option GoError

/-- The type `RetryableFuncWithValueAndErr`: `func() (string, error)`, as the stream of
its results. -/
abbrev RetryableFuncWithValueAndErr := Nat → String × Option GoError

/-- The dynamic value of the `error` result of `Do`: nil, one element of the error
log, or the error log itself (type `Error`). -/
inductive RetError where
  | nil
  | single (e : GoError)
  | aggregate (log : Error)
  deriving DecidableEq, Repr

/-- The interface value obtained from reading a slot of the error log. -/
def RetError.ofSlot (slot : Option GoError) : RetError :=
  match slot with
  | none => .nil
  | some e => .single e

/-- One interaction of a run with the outside world: an invocation of the operation, a
call `onRetry(n, err)`, or a call `time.Sleep(d)`. -/
inductive Event where
  | invoke
  | onRetry (n : Nat) (err : GoError)
  | sleep (d : Duration)
  deriving DecidableEq, Repr

/-- What a run has done to the outside world: how many times the operation was invoked
(the position reached in the stream of its results), and the invocations, the calls of
`onRetry` and the sleeps in the order in which they happened. -/
structure Trace where
  calls : Nat
  events : List Event
  deriving DecidableEq, Repr

/-- The durations passed to `time.Sleep`, in order. -/
def Trace.sleeps (trace : Trace) : List Duration :=
  trace.events.filterMap (fun ev => match ev with
    | .sleep d => some d
    | _ => none)

/-- How a call ended. -/
inductive Outcome (α : Type) where
  | returned (v : α)
  | panicked (p : Panic)
  | outOfFuel
  deriving DecidableEq, Repr

/-- A finished run: the trace and the outcome. -/
structure Run (α : Type) where
  trace : Trace
  out : Outcome α
  deriving DecidableEq, Repr

/-- The outcome with a function applied to the returned value. -/
def Outcome.map {α β : Type} (f : α → β) : Outcome α → Outcome β
  | .returned v => .returned (f v)
  | .panicked p => .panicked p
  | .outOfFuel => .outOfFuel

/-- The largest length `n` for which `make(Error, n)` does not panic: the runtime refuses
(`makeslice: len out of range`) a slice of more than `maxAlloc` bytes, and a value of the
interface `error` takes 16 bytes; `maxAlloc` is `2^48` on linux/amd64, which gives `2^44`. -/
def maxErrorLen : Nat := 17592186044416

/-- The call `make(Error, len)` for a length of type `uint`: a slice of `len` nil errors,
or the panic of the runtime when the length is out of range. -/
def makeError (len : Nat) : Except Panic Error :=
  if len ≤ maxErrorLen then .ok (List.replicate len none)
  else .error (.makesliceLenOutOfRange len)

/-- The function `createErrorLog`: `make(Error, config.attempts)`, or `make(Error, 1)` under
`lastErrorOnly`. -/
def createErrorLog (config : Config) : Except Panic Error :=
  if !config.lastErrorOnly then makeError config.attempts
  else makeError 1

/-- Indexed read `e[i]` with the bounds check of the runtime. -/
def Error.index (e : Error) (i : Nat) : Except Panic (Option GoError) :=
  if h : i < e.length then .ok (e.get ⟨i, h⟩) else .error (.indexOutOfRange i e.length)

/-- Indexed write `e[i] = v` with the bounds check of the runtime. -/
def Error.assign (e : Error) (i : Nat) (v : Option GoError) : Except Panic Error :=
  if i < e.length then .ok (e.set i v) else .error (.indexOutOfRange i e.length)

/-- The function `getDelay`: the delay strategy's value, clamped to `maxDelay` when that is set. -/
def getDelay (delayType : DelayTypeFunc) (config : Config) (n : Nat) : Duration :=
  let delayTime := delayType n config
  if config.maxDelay > 0 ∧ delayTime > config.maxDelay then config.maxDelay
  else delayTime

/-- The function `lenWithoutNil`: the number of non-nil slots. -/
def lenWithoutNil (e : Error) : Nat :=
  e.foldl (fun count v => if v.isSome then count + 1 else count) 0

/-- The loop of `Error.Error`: `for i, l := range e`, writing
`logWithNumber[i] = fmt.Sprintf("#%d: %s", i+1, l.Error())` for each non-nil `l`. -/
def Error.fill : List (Option GoError) → Nat → List String → Except Panic (List String)
  | [], _, logWithNumber => .ok logWithNumber
  | none :: rest, i, logWithNumber => Error.fill rest (i + 1) logWithNumber
  | some l :: rest, i, logWithNumber =>
    match l.Error with
    | .error p => .error p
    | .ok msg =>
      if i < logWithNumber.length then
        Error.fill rest (i + 1) (logWithNumber.set i ("#" ++ toString (i + 1) ++ ": " ++ msg))
      else .error (.indexOutOfRange i logWithNumber.length)

/-- The slice `logWithNumber` at the end of `Error.Error`. -/
def Error.logWithNumber (e : Error) : Except Panic (List String) :=
  Error.fill e 0 (List.replicate (lenWithoutNil e) "")

/-- The method `Error.Error`: the string representation of an `Error`. -/
def Error.Error (e : Error) : Except Panic String :=
  match Error.logWithNumber e with
  | .error p => .error p
  | .ok logWithNumber => .ok ("All attempts fail:\n" ++ String.intercalate "\n" logWithNumber)

/-- The statements of `Do` after the loop (lines 95-98). -/
def Do.finish (config : Config) (lastErrIndex : Nat) (errorLog : Error) (resp : String)
    (status : Int) (trace : Trace) : Run (String × Int × RetError) :=
  if config.lastErrorOnly then
    match Error.index errorLog lastErrIndex with
    | .error p => ⟨trace, .panicked p⟩
    | .ok slot => ⟨trace, .returned (resp, status, RetError.ofSlot slot)⟩
  else ⟨trace, .returned (resp, status, .aggregate errorLog)⟩

/-- The loop of `Do` (lines 67-93); the arguments after the fuel are the local
variables `n`, `lastErrIndex`, `errorLog`, `resp`, `status` and the trace so far. -/
def Do.loop (config : Config) (delayType : DelayTypeFunc) (retryableFunc : RetryableFunc) :
    Nat → Nat → Nat → Error → String → Int → Trace → Run (String × Int × RetError)
  | 0, n, lastErrIndex, errorLog, resp, status, trace =>
    if n < config.attempts then ⟨trace, .outOfFuel⟩
    else Do.finish config lastErrIndex errorLog resp status trace
  | fuel + 1, n, lastErrIndex, errorLog, resp, status, trace =>
    if n < config.attempts then
      match retryableFunc trace.calls with
      | (resp, status, some err) =>
        match Error.assign errorLog lastErrIndex (unpackUnrecoverable err) with
        | .error p => ⟨⟨trace.calls + 1, trace.events ++ [.invoke]⟩, .panicked p⟩
        | .ok errorLog =>
          if !config.retryIf err then
            Do.finish config lastErrIndex errorLog resp status
              ⟨trace.calls + 1, trace.events ++ [.invoke]⟩
          else if n = uintSub config.attempts 1 then
            Do.finish config lastErrIndex errorLog resp status
              ⟨trace.calls + 1, trace.events ++ [.invoke, .onRetry n err]⟩
          else
            Do.loop config delayType retryableFunc fuel (uintSucc n)
              (if !config.lastErrorOnly then uintSucc n else lastErrIndex) errorLog resp status
              ⟨trace.calls + 1, trace.events ++
                [.invoke, .onRetry n err, .sleep (getDelay delayType config n)]⟩
      | (resp, status, none) =>
        ⟨⟨trace.calls + 1, trace.events ++ [.invoke]⟩, .returned (resp, status, .nil)⟩
    else Do.finish config lastErrIndex errorLog resp status trace

/-- The function `Do` (lines 41-99), applied to the configuration built from the defaults
and the options. -/
def Do (config : Config) (delayType : DelayTypeFunc) (retryableFunc : RetryableFunc) :
    Run (String × Int × RetError) :=
  match createErrorLog config with
  | .error p => ⟨⟨0, []⟩, .panicked p⟩
  | .ok errorLog =>
    Do.loop config delayType retryableFunc config.attempts 0 0 errorLog "" (-1) ⟨0, []⟩

/-- The statements of `Do_returnsOnlyError` after the loop (lines 159-162). -/
def Do_returnsOnlyError.finish (config : Config) (lastErrIndex : Nat) (errorLog : Error)
    (trace : Trace) : Run RetError :=
  if config.lastErrorOnly then
    match Error.index errorLog lastErrIndex with
    | .error p => ⟨trace, .panicked p⟩
    | .ok slot => ⟨trace, .returned (RetError.ofSlot slot)⟩
  else ⟨trace, .returned (.aggregate errorLog)⟩

/-- The loop of `Do_returnsOnlyError` (lines 131-157). -/
def Do_returnsOnlyError.loop (config : Config) (delayType : DelayTypeFunc)
    (retryableFunc : RetryableFuncWithErrOnly) :
    Nat → Nat → Nat → Error → Trace → Run RetError
  | 0, n, lastErrIndex, errorLog, trace =>
    if n < config.attempts then ⟨trace, .outOfFuel⟩
    else Do_returnsOnlyError.finish config lastErrIndex errorLog trace
  | fuel + 1, n, lastErrIndex, errorLog, trace =>
    if n < config.attempts then
      match retryableFunc trace.calls with
      | some err =>
        match Error.assign errorLog lastErrIndex (unpackUnrecoverable err) with
        | .error p => ⟨⟨trace.calls + 1, trace.events ++ [.invoke]⟩, .panicked p⟩
        | .ok errorLog =>
          if !config.retryIf err then
            Do_returnsOnlyError.finish config lastErrIndex errorLog
              ⟨trace.calls + 1, trace.events ++ [.invoke]⟩
          else if n = uintSub config.attempts 1 then
            Do_returnsOnlyError.finish config lastErrIndex errorLog
              ⟨trace.calls + 1, trace.events ++ [.invoke, .onRetry n err]⟩
          else
            Do_returnsOnlyError.loop config delayType retryableFunc fuel (uintSucc n)
              (if !config.lastErrorOnly then uintSucc n else lastErrIndex) errorLog
              ⟨trace.calls + 1, trace.events ++
                [.invoke, .onRetry n err, .sleep (getDelay delayType config n)]⟩
      | none => ⟨⟨trace.calls + 1, trace.events ++ [.invoke]⟩, .returned .nil⟩
    else Do_returnsOnlyError.finish config lastErrIndex errorLog trace

/-- The function `Do_returnsOnlyError` (lines 109-163), applied to the configuration built
from the defaults and the options. -/
def Do_returnsOnlyError (config : Config) (delayType : DelayTypeFunc)
    (retryableFunc : RetryableFuncWithErrOnly) : Run RetError :=
  match createErrorLog config with
  | .error p => ⟨⟨0, []⟩, .panicked p⟩
  | .ok errorLog =>
    Do_returnsOnlyError.loop config delayType retryableFunc config.attempts 0 0 errorLog
      ⟨0, []⟩

/-- The statements of `Do_returnsValueAndError` after the loop (lines 214-217). -/
def Do_returnsValueAndError.finish (config : Config) (lastErrIndex : Nat) (errorLog : Error)
    (trace : Trace) : Run (String × RetError) :=
  if config.lastErrorOnly then
    match Error.index errorLog lastErrIndex with
    | .error p => ⟨trace, .panicked p⟩
    | .ok slot => ⟨trace, .returned ("", RetError.ofSlot slot)⟩
  else ⟨trace, .returned ("", .aggregate errorLog)⟩

/-- The loop of `Do_returnsValueAndError` (lines 186-212). -/
def Do_returnsValueAndError.loop (config : Config) (delayType : DelayTypeFunc)
    (retryableFunc : RetryableFuncWithValueAndErr) :
    Nat → Nat → Nat → Error → Trace → Run (String × RetError)
  | 0, n, lastErrIndex, errorLog, trace =>
    if n < config.attempts then ⟨trace, .outOfFuel⟩
    else Do_returnsValueAndError.finish config lastErrIndex errorLog trace
  | fuel + 1, n, lastErrIndex, errorLog, trace =>
    if n < config.attempts then
      match retryableFunc trace.calls with
      | (_, some err) =>
        match Error.assign errorLog lastErrIndex (unpackUnrecoverable err) with
        | .error p => ⟨⟨trace.calls + 1, trace.events ++ [.invoke]⟩, .panicked p⟩
        | .ok errorLog =>
          if !config.retryIf err then
            Do_returnsValueAndError.finish config lastErrIndex errorLog
              ⟨trace.calls + 1, trace.events ++ [.invoke]⟩
          else if n = uintSub config.attempts 1 then
            Do_returnsValueAndError.finish config lastErrIndex errorLog
              ⟨trace.calls + 1, trace.events ++ [.invoke, .onRetry n err]⟩
          else
            Do_returnsValueAndError.loop config delayType retryableFunc fuel (uintSucc n)
              (if !config.lastErrorOnly then uintSucc n else lastErrIndex) errorLog
              ⟨trace.calls + 1, trace.events ++
                [.invoke, .onRetry n err, .sleep (getDelay delayType config n)]⟩
      | (value, none) =>
        ⟨⟨trace.calls + 1, trace.events ++ [.invoke]⟩, .returned (value, .nil)⟩
    else Do_returnsValueAndError.finish config lastErrIndex errorLog trace

/-- The function `Do_returnsValueAndError` (lines 165-218), applied to the configuration
built from the defaults and the options. -/
def Do_returnsValueAndError (config : Config) (delayType : DelayTypeFunc)
    (retryableFunc : RetryableFuncWithValueAndErr) : Run (String × RetError) :=
  match createErrorLog config with
  | .error p => ⟨⟨0, []⟩, .panicked p⟩
  | .ok errorLog =>
    Do_returnsValueAndError.loop config delayType retryableFunc config.attempts 0 0 errorLog
      ⟨0, []⟩


/-! ## Auxiliary definitions for the statements -/

/-- The payload and status that `Do` holds in `resp` and `status` once `c` invocations
have been made, when it held `resp0` and `status0` after `c0` of them. -/
def lastPayload (f : RetryableFunc) (c0 : Nat) (resp0 : String) (status0 : Int) (c : Nat) :
    String × Int :=
  if c = c0 then (resp0, status0) else ((f (c - 1)).1, (f (c - 1)).2.1)

/-- The value `Do_returnsValueAndError` returns once `c` invocations have been made,
`c0` of them before the loop was entered. -/
def lastValue (f : RetryableFuncWithValueAndErr) (c0 c : Nat) : String :=
  if c0 < c ∧ (f (c - 1)).2 = none then (f (c - 1)).1 else ""

/-- The line that `Error.Error` writes for slot `i` holding an error with message `msg`. -/
def numberedLine (i : Nat) (msg : String) : String :=
  "#" ++ toString (i + 1) ++ ": " ++ msg

/-- The events of `m` consecutive failed attempts that are each followed by a retry:
for the attempt with loop counter `n` and invocation number `c`, the invocation, the call
`onRetry(n, es c)` and the sleep of `getDelay(config, n)`. -/
def retryRounds (delayType : DelayTypeFunc) (config : Config) (es : Nat → GoError) :
    Nat → Nat → Nat → List Event
  | 0, _, _ => []
  | m + 1, n, c =>
    [.invoke, .onRetry n (es c), .sleep (getDelay delayType config n)] ++
      retryRounds delayType config es m (n + 1) (c + 1)

/-- The events of a failed attempt after which the loop is left: the invocation, and the
call of `onRetry` when the predicate accepted the error. -/
def lastRound (config : Config) (es : Nat → GoError) (n c : Nat) : List Event :=
  if config.retryIf (es c) then [.invoke, .onRetry n (es c)] else [.invoke]

/-- The errors of the successive invocations of an operation, as a total function: the
error of invocation `i` when it failed (and a placeholder when it succeeded). -/
def errorsOf (g : RetryableFuncWithErrOnly) : Nat → GoError :=
  fun i => (g i).getD (.plain "")

/-! ## Concrete configurations and operations -/

/-- One second, in the nanoseconds of `time.Duration`. -/
def second : Duration := 1000000000

/-- A configuration with the default predicate `IsRecoverable`, base delay 1s,
no jitter and no ceiling on the delay. -/
def exampleConfig (attempts : Nat) (lastErrorOnly : Bool) : Config :=
  { attempts := attempts, delay := second, maxJitter := 0, maxDelay := 0,
    retryIf := IsRecoverable, lastErrorOnly := lastErrorOnly }

/-- The delay strategy that always waits for the base delay. -/
def fixedDelay : DelayTypeFunc := fun _ config => config.delay

/-- An operation that fails on every invocation with the plain error `boom`. -/
def alwaysBoom : RetryableFunc := fun _ => ("body", 500, some (.plain "boom"))

/-- The error-only flavour of `alwaysBoom`. -/
def alwaysBoomErr : RetryableFuncWithErrOnly := fun _ => some (.plain "boom")

/-- The value-and-error flavour of `alwaysBoom`. -/
def alwaysBoomValue : RetryableFuncWithValueAndErr := fun _ => ("body", some (.plain "boom"))

/-- An operation that fails twice and then succeeds with payload `ok`. -/
def okOnThird : RetryableFunc :=
  fun i => if i < 2 then ("", 503, some (.plain "busy")) else ("ok", 200, none)

/-- The error-only flavour of `okOnThird`. -/
def okOnThirdErr : RetryableFuncWithErrOnly :=
  fun i => if i < 2 then some (.plain "busy") else none

/-- The value-and-error flavour of `okOnThird`. -/
def okOnThirdValue : RetryableFuncWithValueAndErr :=
  fun i => if i < 2 then ("", some (.plain "busy")) else ("ok", none)

/-- An operation whose every invocation returns an error wrapped by `Unrecoverable`. -/
def fatal : RetryableFunc := fun _ => ("", 400, some (Unrecoverable (some (.plain "bad request"))))

/-- The error-only flavour of `fatal`. -/
def fatalErr : RetryableFuncWithErrOnly :=
  fun _ => some (Unrecoverable (some (.plain "bad request")))

/-- The value-and-error flavour of `fatal`. -/
def fatalValue : RetryableFuncWithValueAndErr :=
  fun _ => ("", some (Unrecoverable (some (.plain "bad request"))))

/-- An operation that fails twice with the plain error `busy` and then returns an error
wrapped by `Unrecoverable`. -/
def busyThenFatal : RetryableFunc :=
  fun i => if i < 2 then ("", 503, some (.plain "busy"))
    else ("", 400, some (Unrecoverable (some (.plain "bad request"))))

/-- The messages of the errors of `busyThenFatal`. -/
def busyThenFatalMessage : Nat → String :=
  fun i => if i < 2 then "busy" else "bad request"

/-- A configuration with base delay 10s and a ceiling of 15s on the delay. -/
def cappedConfig : Config :=
  { attempts := 4, delay := 10 * second, maxJitter := 0, maxDelay := 15 * second,
    retryIf := IsRecoverable, lastErrorOnly := false }

/-- A delay strategy that doubles the base delay with every attempt. -/
def doublingDelay : DelayTypeFunc := fun n config => config.delay * 2 ^ n

/-- A configuration of two attempts whose retry predicate accepts every error. -/
def acceptAllConfig : Config :=
  { attempts := 2, delay := second, maxJitter := 0, maxDelay := 0,
    retryIf := fun _ => true, lastErrorOnly := false }

/-- An operation that first returns `Unrecoverable(nil)` and then the plain error `x`. -/
def nilThenPlain : RetryableFunc :=
  fun i => if i < 1 then ("", 0, some (Unrecoverable none)) else ("", 0, some (.plain "x"))

/-- A configuration whose `attempts` is `2^62`: a value of `uint` that is more than
`make(Error, n)` accepts. -/
def hugeConfig : Config :=
  { attempts := 4611686018427387904, delay := second, maxJitter := 0, maxDelay := 0,
    retryIf := IsRecoverable, lastErrorOnly := false }

/-- The value-and-error flavour of `busyThenFatal`. -/
def busyThenFatalValue : RetryableFuncWithValueAndErr :=
  fun i => if i < 2 then ("partial", some (.plain "busy"))
    else ("partial", some (Unrecoverable (some (.plain "bad request"))))

/-! ## The three call shapes run the same loop -/

theorem onlyError_finish_calls (config : Config) (li : Nat) (log : Error) (tr : Trace) :
    (Do_returnsOnlyError.finish config li log tr).trace = tr := by
  unfold Do_returnsOnlyError.finish
  split
  · split <;> rfl
  · rfl

theorem onlyError_loop_calls_le (config : Config) (dt : DelayTypeFunc)
    (g : RetryableFuncWithErrOnly) (fuel n li : Nat) (log : Error) (tr : Trace) :
    tr.calls ≤ (Do_returnsOnlyError.loop config dt g fuel n li log tr).trace.calls := by
  induction fuel generalizing n li log tr with
  | zero =>
    unfold Do_returnsOnlyError.loop
    split
    · exact Nat.le_refl _
    · rw [onlyError_finish_calls]
  | succ fuel ih =>
    unfold Do_returnsOnlyError.loop
    split
    · split
      · split
        · exact Nat.le_succ _
        · split
          · rw [onlyError_finish_calls]; exact Nat.le_succ _
          · split
            · rw [onlyError_finish_calls]; exact Nat.le_succ _
            · refine Nat.le_trans ?_ (ih _ _ _ _)
              exact Nat.le_succ _
      · exact Nat.le_succ _
    · rw [onlyError_finish_calls]

theorem Do_finish_sim (config : Config) (li : Nat) (log : Error) (resp : String)
    (status : Int) (tr : Trace) :
    Do.finish config li log resp status tr =
      ⟨tr, (Do_returnsOnlyError.finish config li log tr).out.map
              (fun e => (resp, status, e))⟩ := by
  unfold Do.finish Do_returnsOnlyError.finish
  split
  · split <;> rfl
  · rfl

theorem valueAndError_finish_sim (config : Config) (li : Nat) (log : Error) (tr : Trace) :
    Do_returnsValueAndError.finish config li log tr =
      ⟨tr, (Do_returnsOnlyError.finish config li log tr).out.map (fun e => ("", e))⟩ := by
  unfold Do_returnsValueAndError.finish Do_returnsOnlyError.finish
  split
  · split <;> rfl
  · rfl

theorem lastPayload_step (f : RetryableFunc) (c0 c : Nat) (resp r : String) (status s : Int)
    (e : Option GoError) (hf : f c0 = (r, s, e)) (hc : c0 + 1 ≤ c) :
    lastPayload f (c0 + 1) r s c = lastPayload f c0 resp status c := by
  unfold lastPayload
  by_cases h1 : c = c0 + 1
  · have h2 : c0 + 1 ≠ c0 := by omega
    subst h1
    simp [hf]
  · have h2 : c ≠ c0 := by omega
    simp [h1, h2]

theorem Do_loop_sim (config : Config) (dt : DelayTypeFunc) (f : RetryableFunc)
    (fuel n li : Nat) (log : Error) (resp : String) (status : Int) (tr : Trace) :
    Do.loop config dt f fuel n li log resp status tr =
      ⟨(Do_returnsOnlyError.loop config dt (fun i => (f i).2.2) fuel n li log tr).trace,
       (Do_returnsOnlyError.loop config dt (fun i => (f i).2.2) fuel n li log tr).out.map
         (fun e =>
           ((lastPayload f tr.calls resp status
              (Do_returnsOnlyError.loop config dt (fun i => (f i).2.2) fuel n li log
                tr).trace.calls).1,
            (lastPayload f tr.calls resp status
              (Do_returnsOnlyError.loop config dt (fun i => (f i).2.2) fuel n li log
                tr).trace.calls).2, e))⟩ := by
  induction fuel generalizing n li log resp status tr with
  | zero =>
    unfold Do.loop Do_returnsOnlyError.loop
    by_cases hn : n < config.attempts
    · simp [hn, Outcome.map]
    · simp [hn, Do_finish_sim, onlyError_finish_calls, lastPayload]
  | succ fuel ih =>
    unfold Do.loop Do_returnsOnlyError.loop
    by_cases hn : n < config.attempts
    · rcases hf : f tr.calls with ⟨r, s, _ | err⟩
      · simp [hn, hf, Outcome.map, lastPayload]
      · simp only [hn, hf, if_true]
        cases ha : Error.assign log li (unpackUnrecoverable err) with
        | error p => simp [Outcome.map]
        | ok log2 =>
          by_cases hr : config.retryIf err = true
          · by_cases hl : n = uintSub config.attempts 1
            · simp [hr, hl, Do_finish_sim, onlyError_finish_calls, lastPayload, hf]
            · simp only [hr, hl, Bool.not_true, Bool.false_eq_true, if_false]
              rw [ih]
              have hc := onlyError_loop_calls_le config dt (fun i => (f i).2.2) fuel
                (uintSucc n) (if (!config.lastErrorOnly) = true then uintSucc n else li) log2
                ⟨tr.calls + 1, tr.events ++
                  [.invoke, .onRetry n err, .sleep (getDelay dt config n)]⟩
              simp only at hc
              simp only [lastPayload_step f tr.calls _ resp r status s (some err) hf hc]
          · simp [hr, Do_finish_sim, onlyError_finish_calls, lastPayload, hf]
    · simp [hn, Do_finish_sim, onlyError_finish_calls, lastPayload]

theorem lastValue_step (f : RetryableFuncWithValueAndErr) (c0 c : Nat) (v : String)
    (err : GoError) (hf : f c0 = (v, some err)) (hc : c0 + 1 ≤ c) :
    lastValue f (c0 + 1) c = lastValue f c0 c := by
  unfold lastValue
  by_cases h1 : c = c0 + 1
  · subst h1
    simp [hf]
  · have h2 : c0 + 1 < c := by omega
    have h3 : c0 < c := by omega
    simp [h2, h3]

theorem valueAndError_loop_sim (config : Config) (dt : DelayTypeFunc)
    (f : RetryableFuncWithValueAndErr) (fuel n li : Nat) (log : Error) (tr : Trace) :
    Do_returnsValueAndError.loop config dt f fuel n li log tr =
      ⟨(Do_returnsOnlyError.loop config dt (fun i => (f i).2) fuel n li log tr).trace,
       (Do_returnsOnlyError.loop config dt (fun i => (f i).2) fuel n li log tr).out.map
         (fun e =>
           (lastValue f tr.calls
              (Do_returnsOnlyError.loop config dt (fun i => (f i).2) fuel n li log
                tr).trace.calls, e))⟩ := by
  induction fuel generalizing n li log tr with
  | zero =>
    unfold Do_returnsValueAndError.loop Do_returnsOnlyError.loop
    by_cases hn : n < config.attempts
    · simp [hn, Outcome.map]
    · simp [hn, valueAndError_finish_sim, onlyError_finish_calls, lastValue]
  | succ fuel ih =>
    unfold Do_returnsValueAndError.loop Do_returnsOnlyError.loop
    by_cases hn : n < config.attempts
    · rcases hf : f tr.calls with ⟨v, _ | err⟩
      · simp [hn, hf, Outcome.map, lastValue]
      · simp only [hn, hf, if_true]
        cases ha : Error.assign log li (unpackUnrecoverable err) with
        | error p => simp [Outcome.map]
        | ok log2 =>
          by_cases hr : config.retryIf err = true
          · by_cases hl : n = uintSub config.attempts 1
            · simp [hr, hl, valueAndError_finish_sim, onlyError_finish_calls, lastValue, hf]
            · simp only [hr, hl, Bool.not_true, Bool.false_eq_true, if_false]
              rw [ih]
              have hc := onlyError_loop_calls_le config dt (fun i => (f i).2) fuel
                (uintSucc n) (if (!config.lastErrorOnly) = true then uintSucc n else li) log2
                ⟨tr.calls + 1, tr.events ++
                  [.invoke, .onRetry n err, .sleep (getDelay dt config n)]⟩
              simp only at hc
              simp only [lastValue_step f tr.calls _ v err hf hc]
          · simp [hr, valueAndError_finish_sim, onlyError_finish_calls, lastValue, hf]
    · simp [hn, valueAndError_finish_sim, onlyError_finish_calls, lastValue]

theorem Do_sim (config : Config) (dt : DelayTypeFunc) (f : RetryableFunc) :
    Do config dt f =
      ⟨(Do_returnsOnlyError config dt (fun i => (f i).2.2)).trace,
       (Do_returnsOnlyError config dt (fun i => (f i).2.2)).out.map
         (fun e =>
           ((lastPayload f 0 "" (-1) (Do_returnsOnlyError config dt
              (fun i => (f i).2.2)).trace.calls).1,
            (lastPayload f 0 "" (-1) (Do_returnsOnlyError config dt
              (fun i => (f i).2.2)).trace.calls).2, e))⟩ := by
  unfold Do Do_returnsOnlyError
  cases createErrorLog config with
  | error p => simp [Outcome.map]
  | ok log => simp only; rw [Do_loop_sim]

theorem valueAndError_sim (config : Config) (dt : DelayTypeFunc)
    (f : RetryableFuncWithValueAndErr) :
    Do_returnsValueAndError config dt f =
      ⟨(Do_returnsOnlyError config dt (fun i => (f i).2)).trace,
       (Do_returnsOnlyError config dt (fun i => (f i).2)).out.map
         (fun e =>
           (lastValue f 0 (Do_returnsOnlyError config dt (fun i => (f i).2)).trace.calls,
            e))⟩ := by
  unfold Do_returnsValueAndError Do_returnsOnlyError
  cases createErrorLog config with
  | error p => simp [Outcome.map]
  | ok log => simp only; rw [valueAndError_loop_sim]

theorem Do_trace (config : Config) (dt : DelayTypeFunc) (f : RetryableFunc) :
    (Do config dt f).trace = (Do_returnsOnlyError config dt (fun i => (f i).2.2)).trace := by
  rw [Do_sim]

theorem Do_out (config : Config) (dt : DelayTypeFunc) (f : RetryableFunc) :
    (Do config dt f).out =
      (Do_returnsOnlyError config dt (fun i => (f i).2.2)).out.map
        (fun e =>
          ((lastPayload f 0 "" (-1) (Do_returnsOnlyError config dt
              (fun i => (f i).2.2)).trace.calls).1,
           (lastPayload f 0 "" (-1) (Do_returnsOnlyError config dt
              (fun i => (f i).2.2)).trace.calls).2, e)) := by
  rw [Do_sim]

theorem valueAndError_trace (config : Config) (dt : DelayTypeFunc)
    (f : RetryableFuncWithValueAndErr) :
    (Do_returnsValueAndError config dt f).trace =
      (Do_returnsOnlyError config dt (fun i => (f i).2)).trace := by
  rw [valueAndError_sim]

theorem valueAndError_out (config : Config) (dt : DelayTypeFunc)
    (f : RetryableFuncWithValueAndErr) :
    (Do_returnsValueAndError config dt f).out =
      (Do_returnsOnlyError config dt (fun i => (f i).2)).out.map
        (fun e =>
          (lastValue f 0 (Do_returnsOnlyError config dt (fun i => (f i).2)).trace.calls,
            e)) := by
  rw [valueAndError_sim]

/-! ## One iteration of the loop -/

theorem uintSub_one (N : Nat) (h0 : 0 < N) (hN : N < uintSize) : uintSub N 1 = N - 1 := by
  simp only [uintSub, uintSize] at *
  omega

theorem uintSucc_lt (n N : Nat) (hn : n < N) (hN : N < uintSize) : uintSucc n = n + 1 := by
  simp only [uintSucc, uintSize] at *
  omega

theorem onlyError_finish_last (config : Config) (li : Nat) (log : Error) (tr : Trace)
    (v : Option GoError) (hleo : config.lastErrorOnly = true) (hv : log[li]? = some v) :
    Do_returnsOnlyError.finish config li log tr = ⟨tr, .returned (RetError.ofSlot v)⟩ := by
  have hlt : li < log.length := by
    rcases List.getElem?_eq_some.mp hv with ⟨h, _⟩
    exact h
  have hget : log[li] = v := by
    rcases List.getElem?_eq_some.mp hv with ⟨_, h⟩
    exact h
  simp [Do_returnsOnlyError.finish, hleo, Error.index, hlt, hget]

theorem onlyError_finish_agg (config : Config) (li : Nat) (log : Error) (tr : Trace)
    (hleo : config.lastErrorOnly = false) :
    Do_returnsOnlyError.finish config li log tr = ⟨tr, .returned (.aggregate log)⟩ := by
  simp [Do_returnsOnlyError.finish, hleo]

theorem onlyError_step_success (config : Config) (dt : DelayTypeFunc)
    (g : RetryableFuncWithErrOnly) (fuel n li : Nat) (log : Error) (tr : Trace)
    (hn : n < config.attempts) (hg : g tr.calls = none) :
    Do_returnsOnlyError.loop config dt g (fuel + 1) n li log tr =
      ⟨⟨tr.calls + 1, tr.events ++ [.invoke]⟩, .returned .nil⟩ := by
  simp [Do_returnsOnlyError.loop, hn, hg]

theorem onlyError_step_veto (config : Config) (dt : DelayTypeFunc)
    (g : RetryableFuncWithErrOnly) (fuel n li : Nat) (log : Error) (tr : Trace) (e : GoError)
    (hn : n < config.attempts) (hg : g tr.calls = some e) (hli : li < log.length)
    (hr : config.retryIf e = false) :
    Do_returnsOnlyError.loop config dt g (fuel + 1) n li log tr =
      Do_returnsOnlyError.finish config li (log.set li (unpackUnrecoverable e))
        ⟨tr.calls + 1, tr.events ++ [.invoke]⟩ := by
  simp [Do_returnsOnlyError.loop, hn, hg, Error.assign, hli, hr]

theorem onlyError_step_final (config : Config) (dt : DelayTypeFunc)
    (g : RetryableFuncWithErrOnly) (fuel n li : Nat) (log : Error) (tr : Trace) (e : GoError)
    (hN : config.attempts < uintSize)
    (hn : n + 1 = config.attempts) (hg : g tr.calls = some e) (hli : li < log.length)
    (hr : config.retryIf e = true) :
    Do_returnsOnlyError.loop config dt g (fuel + 1) n li log tr =
      Do_returnsOnlyError.finish config li (log.set li (unpackUnrecoverable e))
        ⟨tr.calls + 1, tr.events ++ [.invoke, .onRetry n e]⟩ := by
  have h1 : n < config.attempts := by omega
  have h2 : n = uintSub config.attempts 1 := by
    rw [uintSub_one _ (by omega) hN]; omega
  simp [Do_returnsOnlyError.loop, h1, hg, Error.assign, hli, hr, ← h2]

theorem onlyError_step_retry (config : Config) (dt : DelayTypeFunc)
    (g : RetryableFuncWithErrOnly) (fuel n li : Nat) (log : Error) (tr : Trace) (e : GoError)
    (hN : config.attempts < uintSize)
    (hn : n + 1 < config.attempts) (hg : g tr.calls = some e) (hli : li < log.length)
    (hr : config.retryIf e = true) :
    Do_returnsOnlyError.loop config dt g (fuel + 1) n li log tr =
      Do_returnsOnlyError.loop config dt g fuel (n + 1)
        (if config.lastErrorOnly = true then li else n + 1) (log.set li (unpackUnrecoverable e))
        ⟨tr.calls + 1, tr.events ++ [.invoke, .onRetry n e, .sleep (getDelay dt config n)]⟩ := by
  have h1 : n < config.attempts := by omega
  have h2 : ¬ n = uintSub config.attempts 1 := by
    rw [uintSub_one _ (by omega) hN]; omega
  have h3 : uintSucc n = n + 1 := uintSucc_lt n _ h1 hN
  cases hleo : config.lastErrorOnly <;>
    simp [Do_returnsOnlyError.loop, h1, hg, Error.assign, hli, hr, h2, h3, hleo]

/-! ## A run of failed attempts -/

theorem onlyError_step_stop (config : Config) (dt : DelayTypeFunc)
    (g : RetryableFuncWithErrOnly) (es : Nat → GoError) (fuel n li : Nat) (log : Error)
    (tr : Trace) (hN : config.attempts < uintSize)
    (hn : n < config.attempts) (hg : g tr.calls = some (es tr.calls)) (hli : li < log.length)
    (hstop : config.retryIf (es tr.calls) = false ∨ n + 1 = config.attempts) :
    Do_returnsOnlyError.loop config dt g (fuel + 1) n li log tr =
      Do_returnsOnlyError.finish config li (log.set li (unpackUnrecoverable (es tr.calls)))
        ⟨tr.calls + 1, tr.events ++ lastRound config es n tr.calls⟩ := by
  cases hr : config.retryIf (es tr.calls) with
  | false =>
    rw [onlyError_step_veto config dt g fuel n li log tr _ hn hg hli hr]
    simp [lastRound, hr]
  | true =>
    rcases hstop with h | h
    · rw [hr] at h; cases h
    · rw [onlyError_step_final config dt g fuel n li log tr _ hN h hg hli hr]
      simp [lastRound, hr]

theorem onlyError_fail_run (config : Config) (dt : DelayTypeFunc)
    (g : RetryableFuncWithErrOnly) (es : Nat → GoError) (hN : config.attempts < uintSize)
    (m : Nat) :
    ∀ (fuel n li : Nat) (log : Error) (tr : Trace),
      m + 1 ≤ fuel → n + (m + 1) ≤ config.attempts →
      (config.lastErrorOnly = true → li < log.length) →
      (config.lastErrorOnly = false → li = n ∧ log.length = config.attempts) →
      (∀ i, i ≤ m → g (tr.calls + i) = some (es (tr.calls + i))) →
      (∀ i, i < m → config.retryIf (es (tr.calls + i)) = true) →
      (config.retryIf (es (tr.calls + m)) = false ∨ n + (m + 1) = config.attempts) →
      ∃ log2,
        Do_returnsOnlyError.loop config dt g fuel n li log tr =
          ⟨⟨tr.calls + (m + 1),
              tr.events ++ (retryRounds dt config es m n tr.calls ++
                lastRound config es (n + m) (tr.calls + m))⟩,
            .returned (if config.lastErrorOnly = true then
              RetError.ofSlot (unpackUnrecoverable (es (tr.calls + m)))
              else .aggregate log2)⟩ ∧
        log2.length = log.length ∧
        (config.lastErrorOnly = false → ∀ j, log2[j]? =
          if n ≤ j ∧ j < n + (m + 1) then some (unpackUnrecoverable (es (tr.calls + (j - n))))
          else log[j]?) := by
  induction m with
  | zero =>
    intro fuel n li log tr hfuel hnm hleo1 hleo0 hfail _ hlast
    obtain ⟨fuel, rfl⟩ : ∃ k, fuel = k + 1 := ⟨fuel - 1, by omega⟩
    have hn : n < config.attempts := by omega
    have hg : g tr.calls = some (es tr.calls) := by
      simpa using hfail 0 (Nat.le_refl 0)
    have hli : li < log.length := by
      cases hleo : config.lastErrorOnly with
      | true => exact hleo1 hleo
      | false => rcases hleo0 hleo with ⟨h1, h2⟩; omega
    have hstop : config.retryIf (es tr.calls) = false ∨ n + 1 = config.attempts := by
      simpa using hlast
    refine ⟨log.set li (unpackUnrecoverable (es tr.calls)), ?_, by simp, ?_⟩
    · rw [onlyError_step_stop config dt g es fuel n li log tr hN hn hg hli hstop]
      cases hleo : config.lastErrorOnly with
      | true =>
        rw [onlyError_finish_last config li _ _ (unpackUnrecoverable (es tr.calls)) hleo
          (by simp [hli])]
        simp [retryRounds]
      | false =>
        rw [onlyError_finish_agg config li _ _ hleo]
        simp [retryRounds]
    · intro hleo j
      rcases hleo0 hleo with ⟨h1, h2⟩
      subst h1
      by_cases hj : li = j
      · subst hj
        simp [hli]
      · have : ¬ (li ≤ j ∧ j < li + 1) := by omega
        simp [hj, this]
  | succ m ih =>
    intro fuel n li log tr hfuel hnm hleo1 hleo0 hfail hretry hlast
    obtain ⟨fuel, rfl⟩ : ∃ k, fuel = k + 1 := ⟨fuel - 1, by omega⟩
    have hg : g tr.calls = some (es tr.calls) := by
      simpa using hfail 0 (Nat.zero_le _)
    have hli : li < log.length := by
      cases hleo : config.lastErrorOnly with
      | true => exact hleo1 hleo
      | false => rcases hleo0 hleo with ⟨h1, h2⟩; omega
    have hr : config.retryIf (es tr.calls) = true := by
      simpa using hretry 0 (Nat.succ_pos _)
    rw [onlyError_step_retry config dt g fuel n li log tr _ hN (by omega) hg hli hr]
    have hshift : ∀ i, tr.calls + 1 + i = tr.calls + (i + 1) := by intro i; omega
    obtain ⟨log2, hrun, hlen, hlog⟩ := ih fuel (n + 1)
      (if config.lastErrorOnly = true then li else n + 1)
      (log.set li (unpackUnrecoverable (es tr.calls)))
      ⟨tr.calls + 1, tr.events ++
        [.invoke, .onRetry n (es tr.calls), .sleep (getDelay dt config n)]⟩
      (by omega) (by omega)
      (by intro h; simpa [h] using hli)
      (by intro h; rcases hleo0 h with ⟨_, h2⟩; simp [h, h2])
      (by intro i hi; simp only [hshift]; exact hfail (i + 1) (by omega))
      (by intro i hi; simp only [hshift]; exact hretry (i + 1) (by omega))
      (by
        simp only [hshift]
        rcases hlast with h' | h'
        · exact Or.inl h'
        · exact Or.inr (by omega))
    refine ⟨log2, ?_, by simpa using hlen, ?_⟩
    · rw [hrun]
      have h1 : n + 1 + m = n + (m + 1) := by omega
      simp only [hshift, retryRounds, List.append_assoc, h1]
    · intro hleo j
      rcases hleo0 hleo with ⟨h1, h2⟩
      subst h1
      rw [hlog hleo j]
      by_cases hj : li = j
      · subst hj
        have h3 : ¬ (li + 1 ≤ li ∧ li < li + 1 + (m + 1)) := by omega
        have h4 : li ≤ li ∧ li < li + (m + 1 + 1) := by omega
        simp [h3, h4, hli]
      · by_cases hin : li + 1 ≤ j ∧ j < li + 1 + (m + 1)
        · have h4 : li ≤ j ∧ j < li + (m + 1 + 1) := by omega
          have h5 : tr.calls + 1 + (j - (li + 1)) = tr.calls + (j - li) := by omega
          simp only [hin, h4, and_self, if_true, h5]
        · have h4 : ¬ (li ≤ j ∧ j < li + (m + 1 + 1)) := by omega
          simp only [hin, h4, if_false]
          exact List.getElem?_set_ne hj

/-! ## Failures followed by a success -/

theorem onlyError_succeed_after (config : Config) (dt : DelayTypeFunc)
    (g : RetryableFuncWithErrOnly) (es : Nat → GoError) (hN : config.attempts < uintSize)
    (k : Nat) :
    ∀ (fuel n li : Nat) (log : Error) (tr : Trace),
      k + 1 ≤ fuel → n + k < config.attempts →
      (config.lastErrorOnly = true → li < log.length) →
      (config.lastErrorOnly = false → li = n ∧ log.length = config.attempts) →
      (∀ i, i < k → g (tr.calls + i) = some (es (tr.calls + i)) ∧
        config.retryIf (es (tr.calls + i)) = true) →
      g (tr.calls + k) = none →
      Do_returnsOnlyError.loop config dt g fuel n li log tr =
        ⟨⟨tr.calls + (k + 1),
            tr.events ++ (retryRounds dt config es k n tr.calls ++ [.invoke])⟩,
          .returned .nil⟩ := by
  induction k with
  | zero =>
    intro fuel n li log tr hfuel hnk _ _ _ hok
    obtain ⟨fuel, rfl⟩ : ∃ j, fuel = j + 1 := ⟨fuel - 1, by omega⟩
    rw [onlyError_step_success config dt g fuel n li log tr (by omega) (by simpa using hok)]
    simp [retryRounds]
  | succ k ih =>
    intro fuel n li log tr hfuel hnk hleo1 hleo0 hfail hok
    obtain ⟨fuel, rfl⟩ : ∃ j, fuel = j + 1 := ⟨fuel - 1, by omega⟩
    obtain ⟨hg, hr⟩ := hfail 0 (Nat.succ_pos _)
    simp only [Nat.add_zero] at hg hr
    have hli : li < log.length := by
      cases hleo : config.lastErrorOnly with
      | true => exact hleo1 hleo
      | false => rcases hleo0 hleo with ⟨h1, h2⟩; omega
    rw [onlyError_step_retry config dt g fuel n li log tr _ hN (by omega) hg hli hr]
    have hshift : ∀ i, tr.calls + 1 + i = tr.calls + (i + 1) := by intro i; omega
    rw [ih fuel (n + 1)
      (if config.lastErrorOnly = true then li else n + 1)
      (log.set li (unpackUnrecoverable (es tr.calls)))
      ⟨tr.calls + 1, tr.events ++
        [Event.invoke, Event.onRetry n (es tr.calls), Event.sleep (getDelay dt config n)]⟩
      (by omega) (by omega)
      (by intro h; simpa [h] using hli)
      (by intro h; rcases hleo0 h with ⟨_, h2⟩; simp [h, h2])
      (by intro i hi; simp only [hshift]; exact hfail (i + 1) (by omega))
      (by simp only [hshift]; exact hok)]
    simp only [hshift, retryRounds, List.append_assoc]

/-! ## The three ways a stream of results ends a run -/

theorem errorsOf_eq (g : RetryableFuncWithErrOnly) (i : Nat) (e : GoError)
    (h : g i = some e) : errorsOf g i = e := by
  simp [errorsOf, h]

theorem stream_cases (g : RetryableFuncWithErrOnly) (p : GoError → Bool) (B : Nat) :
    (∃ k, k < B ∧
      (∀ i, i < k → g i = some (errorsOf g i) ∧ p (errorsOf g i) = true) ∧ g k = none) ∨
    (∃ k, k < B ∧
      (∀ i, i < k → g i = some (errorsOf g i) ∧ p (errorsOf g i) = true) ∧
      g k = some (errorsOf g k) ∧ p (errorsOf g k) = false) ∨
    (∀ i, i < B → g i = some (errorsOf g i) ∧ p (errorsOf g i) = true) := by
  induction B with
  | zero => right; right; intro i hi; omega
  | succ B ih =>
    rcases ih with ⟨k, hk, h1, h2⟩ | ⟨k, hk, h1, h2⟩ | hall
    · exact Or.inl ⟨k, by omega, h1, h2⟩
    · exact Or.inr (Or.inl ⟨k, by omega, h1, h2⟩)
    · cases hg : g B with
      | none => exact Or.inl ⟨B, by omega, hall, hg⟩
      | some e =>
        have he : errorsOf g B = e := errorsOf_eq g B e hg
        cases hp : p e with
        | false =>
          exact Or.inr (Or.inl ⟨B, by omega, hall, by rw [he]; exact hg, by rw [he]; exact hp⟩)
        | true =>
          right; right
          intro i hi
          by_cases hiB : i = B
          · subst hiB
            exact ⟨by rw [he]; exact hg, by rw [he]; exact hp⟩
          · exact hall i (by omega)

/-! ## Rendering of an error log whose non-nil slots come first -/

theorem foldl_count_nils (k c : Nat) :
    (List.replicate k (none : Option GoError)).foldl
      (fun (count : Nat) (v : Option GoError) => if v.isSome then count + 1 else count) c = c := by
  induction k with
  | zero => rfl
  | succ k ih => simpa [List.replicate_succ] using ih

theorem lenWithoutNil_filled (us : List GoError) (k : Nat) :
    lenWithoutNil (us.map some ++ List.replicate k none) = us.length := by
  have h : ∀ (us : List GoError) (c : Nat),
      (us.map some ++ List.replicate k none).foldl
        (fun (count : Nat) (v : Option GoError) => if v.isSome then count + 1 else count) c = c + us.length := by
    intro us
    induction us with
    | nil => intro c; simpa using foldl_count_nils k c
    | cons u us ih =>
      intro c
      simp only [List.map_cons, List.cons_append, List.foldl_cons, Option.isSome_some,
        if_true, List.length_cons]
      rw [ih]
      omega
  unfold lenWithoutNil
  rw [h]
  omega

theorem fill_nils (k i : Nat) (acc : List String) :
    Error.fill (List.replicate k none) i acc = .ok acc := by
  induction k generalizing i with
  | zero => rfl
  | succ k ih =>
    rw [List.replicate_succ]
    unfold Error.fill
    exact ih (i + 1)

theorem fill_filled (msg : Nat → String) (k : Nat) (us : List GoError) :
    ∀ (done : List String),
      (∀ (j : Nat) (e : GoError), us[j]? = some e →
        e.Error = .ok (msg (done.length + j))) →
      Error.fill (us.map some ++ List.replicate k none) done.length
          (done ++ List.replicate us.length "") =
        .ok (done ++ (List.range' done.length us.length).map
          (fun i => numberedLine i (msg i))) := by
  induction us with
  | nil =>
    intro done _
    simpa using fill_nils k done.length done
  | cons u us ih =>
    intro done hmsg
    have hu : u.Error = .ok (msg done.length) := by
      simpa using hmsg 0 u (by simp)
    have hlt : done.length < (done ++ List.replicate (us.length + 1) "").length := by
      simp
    simp only [List.map_cons, List.cons_append, List.length_cons]
    unfold Error.fill
    simp only [hu, hlt, if_true]
    have hset : (done ++ List.replicate (us.length + 1) "").set done.length
        ("#" ++ toString (done.length + 1) ++ ": " ++ msg done.length) =
        (done ++ [numberedLine done.length (msg done.length)]) ++
          List.replicate us.length "" := by
      rw [List.set_append_right _ _ (Nat.le_refl _)]
      simp [List.replicate_succ, numberedLine]
    rw [hset]
    have hlen : (done ++ [numberedLine done.length (msg done.length)]).length =
        done.length + 1 := by simp
    have := ih (done ++ [numberedLine done.length (msg done.length)]) (by
      intro j e hj
      rw [hlen]
      have := hmsg (j + 1) e (by simpa using hj)
      rw [this]
      congr 2
      omega)
    rw [hlen] at this
    rw [this]
    simp [List.range'_succ]

theorem render_filled (msg : Nat → String) (k : Nat) (us : List GoError)
    (hmsg : ∀ (j : Nat) (e : GoError), us[j]? = some e → e.Error = .ok (msg j)) :
    Error.Error (us.map some ++ List.replicate k none) =
      .ok ("All attempts fail:\n" ++ String.intercalate "\n"
        ((List.range us.length).map (fun i => numberedLine i (msg i)))) := by
  unfold Error.Error Error.logWithNumber
  rw [lenWithoutNil_filled]
  have := fill_filled msg k us [] (by simpa using hmsg)
  simp only [List.length_nil, List.nil_append] at this
  rw [this, List.range_eq_range']

/-! ## The whole run of `Do_returnsOnlyError` -/

theorem createErrorLog_ok (config : Config)
    (hfit : config.lastErrorOnly = false → config.attempts ≤ maxErrorLen) :
    createErrorLog config =
      .ok (if config.lastErrorOnly = true then [none]
        else List.replicate config.attempts none) := by
  cases hleo : config.lastErrorOnly with
  | true =>
    have h1 : 1 ≤ maxErrorLen := by decide
    simp [createErrorLog, makeError, hleo, h1]
  | false =>
    have h1 := hfit hleo
    simp [createErrorLog, makeError, hleo, h1]

theorem onlyError_unfold (config : Config) (dt : DelayTypeFunc)
    (g : RetryableFuncWithErrOnly)
    (hfit : config.lastErrorOnly = false → config.attempts ≤ maxErrorLen) :
    Do_returnsOnlyError config dt g =
      Do_returnsOnlyError.loop config dt g config.attempts 0 0
        (if config.lastErrorOnly = true then [none]
          else List.replicate config.attempts none) ⟨0, []⟩ := by
  unfold Do_returnsOnlyError
  rw [createErrorLog_ok config hfit]

theorem onlyError_no_attempts (config : Config) (dt : DelayTypeFunc)
    (g : RetryableFuncWithErrOnly) (hz : config.attempts = 0) :
    Do_returnsOnlyError config dt g =
      ⟨⟨0, []⟩, .returned (if config.lastErrorOnly = true then .nil else .aggregate [])⟩ := by
  rw [onlyError_unfold config dt g (by intro _; omega), hz]
  unfold Do_returnsOnlyError.loop
  cases hleo : config.lastErrorOnly <;>
    simp [hz, Do_returnsOnlyError.finish, hleo, Error.index, RetError.ofSlot]

theorem onlyError_failed_run (config : Config) (dt : DelayTypeFunc)
    (g : RetryableFuncWithErrOnly) (es : Nat → GoError) (m : Nat)
    (hN : config.attempts < uintSize)
    (hfit : config.lastErrorOnly = false → config.attempts ≤ maxErrorLen)
    (hmN : m + 1 ≤ config.attempts)
    (hfail : ∀ i, i ≤ m → g i = some (es i))
    (hretry : ∀ i, i < m → config.retryIf (es i) = true)
    (hstop : config.retryIf (es m) = false ∨ m + 1 = config.attempts) :
    Do_returnsOnlyError config dt g =
      ⟨⟨m + 1, retryRounds dt config es m 0 0 ++ lastRound config es m m⟩,
        .returned (if config.lastErrorOnly = true then
          RetError.ofSlot (unpackUnrecoverable (es m))
          else .aggregate ((List.range (m + 1)).map (fun i => unpackUnrecoverable (es i)) ++
            List.replicate (config.attempts - (m + 1)) none))⟩ := by
  obtain ⟨log2, hrun, hlen, hlog⟩ := onlyError_fail_run config dt g es hN m
    config.attempts 0 0
    (if config.lastErrorOnly = true then [none] else List.replicate config.attempts none)
    ⟨0, []⟩
    (by omega) (by omega)
    (by intro h; simp [h])
    (by intro h; simp [h])
    (by intro i hi; simpa using hfail i hi)
    (by intro i hi; simpa using hretry i hi)
    (by
      rcases hstop with h | h
      · left; simpa using h
      · right; omega)
  rw [onlyError_unfold config dt g hfit, hrun]
  cases hleo : config.lastErrorOnly with
  | true => simp
  | false =>
    have hlog2 : log2 = (List.range (m + 1)).map (fun i => unpackUnrecoverable (es i)) ++
        List.replicate (config.attempts - (m + 1)) none := by
      apply List.ext_getElem?
      intro j
      rw [hlog hleo j]
      by_cases hj : j < m + 1
      · have h1 : 0 ≤ j ∧ j < 0 + (m + 1) := by omega
        rw [if_pos h1, List.getElem?_append_left (by simpa using hj)]
        simp only [Nat.zero_add, Nat.sub_zero, List.getElem?_map, List.getElem?_range hj,
          Option.map_some']
      · have h1 : ¬ (0 ≤ j ∧ j < 0 + (m + 1)) := by omega
        rw [if_neg h1, List.getElem?_append_right (by simpa using Nat.le_of_not_lt hj)]
        simp only [hleo, Bool.false_eq_true, if_false, List.length_map, List.length_range,
          List.getElem?_replicate]
        by_cases hjN : j < config.attempts
        · have : j - (m + 1) < config.attempts - (m + 1) := by omega
          simp [hjN, this]
        · have : ¬ j - (m + 1) < config.attempts - (m + 1) := by omega
          simp [hjN, this]
    simp [hlog2]

theorem onlyError_success_run (config : Config) (dt : DelayTypeFunc)
    (g : RetryableFuncWithErrOnly) (es : Nat → GoError) (k : Nat)
    (hN : config.attempts < uintSize)
    (hfit : config.lastErrorOnly = false → config.attempts ≤ maxErrorLen)
    (hkN : k < config.attempts)
    (hfail : ∀ i, i < k → g i = some (es i) ∧ config.retryIf (es i) = true)
    (hok : g k = none) :
    Do_returnsOnlyError config dt g =
      ⟨⟨k + 1, retryRounds dt config es k 0 0 ++ [.invoke]⟩, .returned .nil⟩ := by
  rw [onlyError_unfold config dt g hfit,
    onlyError_succeed_after config dt g es hN k config.attempts 0 0 _ ⟨0, []⟩
      (by omega) (by omega)
      (by intro h; simp [h])
      (by intro h; simp [h])
      (by intro i hi; simpa using hfail i hi)
      (by simpa using hok)]
  simp

/-- Every run of `Do_returnsOnlyError` is of one of three kinds: a success after `k`
accepted failures, a failure after `m + 1` failed attempts, or no attempt at all. -/
theorem onlyError_run_cases (config : Config) (dt : DelayTypeFunc)
    (g : RetryableFuncWithErrOnly) (hN : config.attempts < uintSize)
    (hfit : config.lastErrorOnly = false → config.attempts ≤ maxErrorLen) :
    (∃ k, k < config.attempts ∧ g k = none ∧
      Do_returnsOnlyError config dt g =
        ⟨⟨k + 1, retryRounds dt config (errorsOf g) k 0 0 ++ [.invoke]⟩, .returned .nil⟩) ∨
    (∃ m, m + 1 ≤ config.attempts ∧ (∀ i, i ≤ m → g i = some (errorsOf g i)) ∧
      Do_returnsOnlyError config dt g =
        ⟨⟨m + 1, retryRounds dt config (errorsOf g) m 0 0 ++
            lastRound config (errorsOf g) m m⟩,
          .returned (if config.lastErrorOnly = true then
            RetError.ofSlot (unpackUnrecoverable (errorsOf g m))
            else .aggregate
              ((List.range (m + 1)).map (fun i => unpackUnrecoverable (errorsOf g i)) ++
                List.replicate (config.attempts - (m + 1)) none))⟩) ∨
    (config.attempts = 0 ∧
      Do_returnsOnlyError config dt g =
        ⟨⟨0, []⟩, .returned (if config.lastErrorOnly = true then .nil else .aggregate [])⟩) := by
  rcases stream_cases g config.retryIf config.attempts with
    ⟨k, hk, h1, h2⟩ | ⟨k, hk, h1, h2, h3⟩ | hall
  · exact Or.inl ⟨k, hk, h2,
      onlyError_success_run config dt g (errorsOf g) k hN hfit hk h1 h2⟩
  · refine Or.inr (Or.inl ⟨k, by omega, ?_, ?_⟩)
    · intro i hi
      by_cases hik : i = k
      · subst hik; exact h2
      · exact (h1 i (by omega)).1
    · exact onlyError_failed_run config dt g (errorsOf g) k hN hfit (by omega)
        (by
          intro i hi
          by_cases hik : i = k
          · subst hik; exact h2
          · exact (h1 i (by omega)).1)
        (fun i hi => (h1 i hi).2) (Or.inl h3)
  · by_cases hz : config.attempts = 0
    · exact Or.inr (Or.inr ⟨hz, onlyError_no_attempts config dt g hz⟩)
    · refine Or.inr (Or.inl ⟨config.attempts - 1, by omega, ?_, ?_⟩)
      · intro i hi
        exact (hall i (by omega)).1
      · exact onlyError_failed_run config dt g (errorsOf g) (config.attempts - 1) hN hfit
          (by omega) (fun i hi => (hall i (by omega)).1) (fun i hi => (hall i (by omega)).2)
          (Or.inr (by omega))

/-! ## Events and sleeps of a run of failed attempts -/

theorem retryRounds_eq_flatMap (dt : DelayTypeFunc) (config : Config) (es : Nat → GoError)
    (m : Nat) :
    ∀ s, retryRounds dt config es m s s =
      (List.range' s m).flatMap
        (fun i => [Event.invoke, Event.onRetry i (es i), Event.sleep (getDelay dt config i)]) := by
  induction m with
  | zero => intro s; rfl
  | succ m ih =>
    intro s
    rw [List.range'_succ, List.flatMap_cons, ← ih (s + 1)]
    rfl

theorem sleeps_append (c1 c2 c3 : Nat) (xs ys : List Event) :
    Trace.sleeps ⟨c1, xs ++ ys⟩ = Trace.sleeps ⟨c2, xs⟩ ++ Trace.sleeps ⟨c3, ys⟩ := by
  simp [Trace.sleeps, List.filterMap_append]

theorem sleeps_retryRounds (dt : DelayTypeFunc) (config : Config) (es : Nat → GoError)
    (m : Nat) :
    ∀ n c, Trace.sleeps ⟨0, retryRounds dt config es m n c⟩ =
      (List.range' n m).map (getDelay dt config) := by
  induction m with
  | zero => intro n c; rfl
  | succ m ih =>
    intro n c
    have h := ih (n + 1) (c + 1)
    simp only [Trace.sleeps] at h
    simp [retryRounds, Trace.sleeps, List.range'_succ, h]

theorem sleeps_lastRound (config : Config) (es : Nat → GoError) (n c : Nat) :
    Trace.sleeps ⟨0, lastRound config es n c⟩ = [] := by
  unfold lastRound
  split <;> rfl

theorem unpackUnrecoverable_plain (msg : String) :
    unpackUnrecoverable (.plain msg) = some (.plain msg) := rfl

theorem unpackUnrecoverable_wrapped (x : Option GoError) :
    unpackUnrecoverable (Unrecoverable x) = x := by
  cases x <;> rfl

theorem isRecoverable_unrecoverable (x : Option GoError) :
    IsRecoverable (Unrecoverable x) = false := by
  cases x <;> rfl

theorem onlyError_always_failing (config : Config) (dt : DelayTypeFunc)
    (g : RetryableFuncWithErrOnly) (es : Nat → GoError)
    (hN : config.attempts < uintSize)
    (hfit : config.lastErrorOnly = false → config.attempts ≤ maxErrorLen)
    (hA : 1 ≤ config.attempts)
    (hg : ∀ i, g i = some (es i) ∧ config.retryIf (es i) = true) :
    Do_returnsOnlyError config dt g =
      ⟨⟨config.attempts,
          (List.range (config.attempts - 1)).flatMap
            (fun i => [Event.invoke, Event.onRetry i (es i),
              Event.sleep (getDelay dt config i)]) ++
          [Event.invoke, Event.onRetry (config.attempts - 1) (es (config.attempts - 1))]⟩,
        .returned (if config.lastErrorOnly = true then
          RetError.ofSlot (unpackUnrecoverable (es (config.attempts - 1)))
          else .aggregate
            ((List.range config.attempts).map (fun i => unpackUnrecoverable (es i))))⟩ := by
  have hrun := onlyError_failed_run config dt g es (config.attempts - 1) hN hfit (by omega)
    (fun i _ => (hg i).1) (fun i _ => (hg i).2) (Or.inr (by omega))
  have hc : config.attempts - 1 + 1 = config.attempts := by omega
  rw [hrun, retryRounds_eq_flatMap]
  simp only [lastRound, (hg (config.attempts - 1)).2, if_true, List.range_eq_range', hc,
    Nat.sub_self, List.replicate_zero, List.append_nil]

theorem onlyError_always_failing_calls (config : Config) (dt : DelayTypeFunc)
    (g : RetryableFuncWithErrOnly)
    (hN : config.attempts < uintSize)
    (hfit : config.lastErrorOnly = false → config.attempts ≤ maxErrorLen)
    (hg : ∀ i, ∃ e, g i = some e ∧ config.retryIf e = true) :
    (Do_returnsOnlyError config dt g).trace.calls = config.attempts := by
  by_cases hz : config.attempts = 0
  · rw [onlyError_no_attempts config dt g hz, hz]
  · rw [onlyError_always_failing config dt g (errorsOf g) hN hfit (by omega)
      (by
        intro i
        obtain ⟨e, he, hr⟩ := hg i
        rw [errorsOf_eq g i e he]
        exact ⟨he, hr⟩)]

theorem onlyError_success_at (config : Config) (dt : DelayTypeFunc)
    (g : RetryableFuncWithErrOnly) (hN : config.attempts < uintSize)
    (hfit : config.lastErrorOnly = false → config.attempts ≤ maxErrorLen) (K : Nat)
    (hK1 : 1 ≤ K) (hKN : K ≤ config.attempts)
    (hfail : ∀ i, i + 1 < K → ∃ e, g i = some e ∧ config.retryIf e = true)
    (hok : g (K - 1) = none) :
    (Do_returnsOnlyError config dt g).trace.calls = K ∧
    (Do_returnsOnlyError config dt g).out = .returned .nil := by
  have hrun := onlyError_success_run config dt g (errorsOf g) (K - 1) hN hfit (by omega)
    (by
      intro i hi
      obtain ⟨e, he, hr⟩ := hfail i (by omega)
      rw [errorsOf_eq g i e he]
      exact ⟨he, hr⟩)
    hok
  rw [hrun]
  exact ⟨by simp only; omega, rfl⟩

theorem onlyError_unrecoverable_first (config : Config) (dt : DelayTypeFunc)
    (g : RetryableFuncWithErrOnly) (hN : config.attempts < uintSize)
    (hfit : config.lastErrorOnly = false → config.attempts ≤ maxErrorLen)
    (hpred : config.retryIf = IsRecoverable) (hA : 1 < config.attempts)
    (x : Option GoError) (hg : g 0 = some (Unrecoverable x)) :
    (Do_returnsOnlyError config dt g).trace = ⟨1, [.invoke]⟩ := by
  have hr : config.retryIf (Unrecoverable x) = false := by
    rw [hpred]; exact isRecoverable_unrecoverable x
  have hrun := onlyError_failed_run config dt g (fun _ => Unrecoverable x) 0 hN hfit (by omega)
    (by
      intro i hi
      have : i = 0 := by omega
      subst this
      exact hg)
    (by intro i hi; omega)
    (Or.inl hr)
  rw [hrun]
  simp [retryRounds, lastRound, hr]

/-! ## The claims -/

/-- C1 (amended): for a configuration with `attempts = N` (any `N`, zero included) whose
error log `make` accepts (`lastErrorOnly = true`, or `N` at most `maxErrorLen`), either
value of `lastErrorOnly` and any delay strategy, an operation that fails on every
invocation with an error the retry predicate accepts is invoked exactly `N` times by each
of `Do`, `Do_returnsOnlyError` and `Do_returnsValueAndError`. -/
theorem C1_always_failing_invoked_attempts_times (config : Config) (delayType : DelayTypeFunc)
    (f : RetryableFunc) (g : RetryableFuncWithErrOnly) (h : RetryableFuncWithValueAndErr)
    (hN : config.attempts < uintSize)
    (hfit : config.lastErrorOnly = false → config.attempts ≤ maxErrorLen)
    (hf : ∀ i, ∃ e, (f i).2.2 = some e ∧ config.retryIf e = true)
    (hg : ∀ i, ∃ e, g i = some e ∧ config.retryIf e = true)
    (hh : ∀ i, ∃ e, (h i).2 = some e ∧ config.retryIf e = true) :
    (Do config delayType f).trace.calls = config.attempts ∧
    (Do_returnsOnlyError config delayType g).trace.calls = config.attempts ∧
    (Do_returnsValueAndError config delayType h).trace.calls = config.attempts := by
  refine ⟨?_, ?_, ?_⟩
  · rw [Do_sim]
    exact onlyError_always_failing_calls config delayType (fun i => (f i).2.2) hN hfit hf
  · exact onlyError_always_failing_calls config delayType g hN hfit hg
  · rw [valueAndError_sim]
    exact onlyError_always_failing_calls config delayType (fun i => (h i).2) hN hfit hh

/-- C1 (amended) at `attempts = 0` and at `attempts = 4`: no invocation, and four
invocations. -/
theorem C1_always_failing_invoked_attempts_times_witness :
    ((Do (exampleConfig 0 true) fixedDelay alwaysBoom).trace.calls = 0 ∧
      (Do_returnsOnlyError (exampleConfig 0 true) fixedDelay alwaysBoomErr).trace.calls = 0 ∧
      (Do_returnsValueAndError (exampleConfig 0 true) fixedDelay
        alwaysBoomValue).trace.calls = 0) ∧
    ((Do (exampleConfig 4 false) fixedDelay alwaysBoom).trace.calls = 4 ∧
      (Do_returnsOnlyError (exampleConfig 4 false) fixedDelay alwaysBoomErr).trace.calls = 4 ∧
      (Do_returnsValueAndError (exampleConfig 4 false) fixedDelay
        alwaysBoomValue).trace.calls = 4) :=
  ⟨C1_always_failing_invoked_attempts_times (exampleConfig 0 true) fixedDelay alwaysBoom
      alwaysBoomErr alwaysBoomValue (by decide) (by decide) (fun _ => ⟨_, rfl, rfl⟩)
      (fun _ => ⟨_, rfl, rfl⟩) (fun _ => ⟨_, rfl, rfl⟩),
    C1_always_failing_invoked_attempts_times (exampleConfig 4 false) fixedDelay alwaysBoom
      alwaysBoomErr alwaysBoomValue (by decide) (by decide) (fun _ => ⟨_, rfl, rfl⟩)
      (fun _ => ⟨_, rfl, rfl⟩) (fun _ => ⟨_, rfl, rfl⟩)⟩

/-- C1 as stated fails: with `attempts = 2^62` (a value of `uint`) and
`lastErrorOnly = false`, `make(Error, config.attempts)` panics in `createErrorLog`, so the
always-failing operation is invoked 0 times, not `2^62` times. -/
theorem C1_counterexample :
    hugeConfig.attempts < uintSize ∧
    Do hugeConfig fixedDelay alwaysBoom =
      ⟨⟨0, []⟩, .panicked (.makesliceLenOutOfRange 4611686018427387904)⟩ ∧
    (Do hugeConfig fixedDelay alwaysBoom).trace.calls ≠ hugeConfig.attempts ∧
    (Do_returnsOnlyError hugeConfig fixedDelay alwaysBoomErr).trace.calls ≠
      hugeConfig.attempts ∧
    (Do_returnsValueAndError hugeConfig fixedDelay alwaysBoomValue).trace.calls ≠
      hugeConfig.attempts := by
  refine ⟨by decide, by decide, by decide, by decide, by decide⟩

/-- C2 (amended): with `attempts = N` that `make` accepts for the error log
(`lastErrorOnly = true`, or `N` at most `maxErrorLen`) and `1 ≤ K ≤ N`, an operation that
fails with errors the predicate accepts on its first `K-1` invocations and succeeds on the
`K`-th is invoked exactly `K` times; `Do` returns the payload and status of the `K`-th
invocation with a nil error, `Do_returnsValueAndError` its value with a nil error,
`Do_returnsOnlyError` nil. -/
theorem C2_success_on_attempt_K (config : Config) (delayType : DelayTypeFunc)
    (f : RetryableFunc) (g : RetryableFuncWithErrOnly) (h : RetryableFuncWithValueAndErr)
    (hN : config.attempts < uintSize)
    (hfit : config.lastErrorOnly = false → config.attempts ≤ maxErrorLen)
    (K : Nat) (hK1 : 1 ≤ K) (hKN : K ≤ config.attempts)
    (hf : ∀ i, i + 1 < K → ∃ e, (f i).2.2 = some e ∧ config.retryIf e = true)
    (hfK : (f (K - 1)).2.2 = none)
    (hg : ∀ i, i + 1 < K → ∃ e, g i = some e ∧ config.retryIf e = true)
    (hgK : g (K - 1) = none)
    (hh : ∀ i, i + 1 < K → ∃ e, (h i).2 = some e ∧ config.retryIf e = true)
    (hhK : (h (K - 1)).2 = none) :
    ((Do config delayType f).trace.calls = K ∧
      (Do config delayType f).out = .returned ((f (K - 1)).1, (f (K - 1)).2.1, .nil)) ∧
    ((Do_returnsOnlyError config delayType g).trace.calls = K ∧
      (Do_returnsOnlyError config delayType g).out = .returned .nil) ∧
    ((Do_returnsValueAndError config delayType h).trace.calls = K ∧
      (Do_returnsValueAndError config delayType h).out = .returned ((h (K - 1)).1, .nil)) := by
  obtain ⟨c1, o1⟩ := onlyError_success_at config delayType (fun i => (f i).2.2) hN hfit K
    hK1 hKN hf hfK
  obtain ⟨c3, o3⟩ := onlyError_success_at config delayType (fun i => (h i).2) hN hfit K
    hK1 hKN hh hhK
  have hK0 : K ≠ 0 := by omega
  refine ⟨⟨?_, ?_⟩, onlyError_success_at config delayType g hN hfit K hK1 hKN hg hgK,
    ⟨?_, ?_⟩⟩
  · rw [Do_sim]; exact c1
  · rw [Do_sim]
    simp only [c1, o1, Outcome.map, lastPayload, hK0, if_false]
  · rw [valueAndError_sim]; exact c3
  · rw [valueAndError_sim]
    have hpos : 0 < K := by omega
    simp only [c3, o3, Outcome.map, lastValue, hpos, hhK, and_self, if_true]

/-- C2 (amended) at `attempts = 5`: two failures, then success with payload `ok`, gives
`ok`, a nil error and three invocations. -/
theorem C2_success_on_attempt_K_witness :
    ((Do (exampleConfig 5 false) fixedDelay okOnThird).trace.calls = 3 ∧
      (Do (exampleConfig 5 false) fixedDelay okOnThird).out = .returned ("ok", 200, .nil)) ∧
    ((Do_returnsOnlyError (exampleConfig 5 false) fixedDelay okOnThirdErr).trace.calls = 3 ∧
      (Do_returnsOnlyError (exampleConfig 5 false) fixedDelay okOnThirdErr).out =
        .returned .nil) ∧
    ((Do_returnsValueAndError (exampleConfig 5 false) fixedDelay okOnThirdValue).trace.calls = 3 ∧
      (Do_returnsValueAndError (exampleConfig 5 false) fixedDelay okOnThirdValue).out =
        .returned ("ok", .nil)) :=
  C2_success_on_attempt_K (exampleConfig 5 false) fixedDelay okOnThird okOnThirdErr
    okOnThirdValue (by decide) (by decide) 3 (by decide) (by decide)
    (fun i hi => ⟨.plain "busy", by
      have : i < 2 := by omega
      simp [okOnThird, this], rfl⟩)
    (by decide)
    (fun i hi => ⟨.plain "busy", by
      have : i < 2 := by omega
      simp [okOnThirdErr, this], rfl⟩)
    (by decide)
    (fun i hi => ⟨.plain "busy", by
      have : i < 2 := by omega
      simp [okOnThirdValue, this], rfl⟩)
    (by decide)

/-- C2 as stated fails: with `N = 2^62`, `lastErrorOnly = false` and `K = 3`, the operation
that succeeds on its third invocation is never invoked, and `Do` panics in `make` instead
of returning `ok`. -/
theorem C2_counterexample :
    hugeConfig.attempts < uintSize ∧ 3 ≤ hugeConfig.attempts ∧
    Do hugeConfig fixedDelay okOnThird =
      ⟨⟨0, []⟩, .panicked (.makesliceLenOutOfRange 4611686018427387904)⟩ ∧
    (Do hugeConfig fixedDelay okOnThird).trace.calls ≠ 3 ∧
    (Do hugeConfig fixedDelay okOnThird).out ≠ .returned ("ok", 200, .nil) := by
  refine ⟨by decide, by decide, by decide, by decide, by decide⟩

/-- C3 (amended): with the default predicate `IsRecoverable` and `attempts > 1` that `make`
accepts for the error log (`lastErrorOnly = true`, or `attempts` at most `maxErrorLen`),
an operation whose first invocation returns an error wrapped by `Unrecoverable` is invoked
exactly once by `Do`, `Do_returnsOnlyError` and `Do_returnsValueAndError`: that invocation
is the only event of the run, with no call of `onRetry` and no sleep after it. -/
theorem C3_unrecoverable_first_invoked_once (config : Config) (delayType : DelayTypeFunc)
    (f : RetryableFunc) (g : RetryableFuncWithErrOnly) (h : RetryableFuncWithValueAndErr)
    (x y z : Option GoError)
    (hN : config.attempts < uintSize)
    (hfit : config.lastErrorOnly = false → config.attempts ≤ maxErrorLen)
    (hpred : config.retryIf = IsRecoverable)
    (hA : 1 < config.attempts)
    (hf : (f 0).2.2 = some (Unrecoverable x)) (hg : g 0 = some (Unrecoverable y))
    (hh : (h 0).2 = some (Unrecoverable z)) :
    ((Do config delayType f).trace.calls = 1 ∧
      (Do config delayType f).trace.events = [.invoke]) ∧
    ((Do_returnsOnlyError config delayType g).trace.calls = 1 ∧
      (Do_returnsOnlyError config delayType g).trace.events = [.invoke]) ∧
    ((Do_returnsValueAndError config delayType h).trace.calls = 1 ∧
      (Do_returnsValueAndError config delayType h).trace.events = [.invoke]) := by
  have h1 := onlyError_unrecoverable_first config delayType (fun i => (f i).2.2) hN hfit
    hpred hA x hf
  have h2 := onlyError_unrecoverable_first config delayType g hN hfit hpred hA y hg
  have h3 := onlyError_unrecoverable_first config delayType (fun i => (h i).2) hN hfit
    hpred hA z hh
  refine ⟨?_, ?_, ?_⟩
  · rw [Do_sim, h1]; exact ⟨rfl, rfl⟩
  · rw [h2]; exact ⟨rfl, rfl⟩
  · rw [valueAndError_sim, h3]; exact ⟨rfl, rfl⟩

/-- C3 (amended) at `attempts = 5`: an operation returning `Unrecoverable(bad request)` is
invoked once. -/
theorem C3_unrecoverable_first_invoked_once_witness :
    ((Do (exampleConfig 5 false) fixedDelay fatal).trace.calls = 1 ∧
      (Do (exampleConfig 5 false) fixedDelay fatal).trace.events = [.invoke]) ∧
    ((Do_returnsOnlyError (exampleConfig 5 false) fixedDelay fatalErr).trace.calls = 1 ∧
      (Do_returnsOnlyError (exampleConfig 5 false) fixedDelay fatalErr).trace.events =
        [.invoke]) ∧
    ((Do_returnsValueAndError (exampleConfig 5 false) fixedDelay fatalValue).trace.calls = 1 ∧
      (Do_returnsValueAndError (exampleConfig 5 false) fixedDelay fatalValue).trace.events =
        [.invoke]) :=
  C3_unrecoverable_first_invoked_once (exampleConfig 5 false) fixedDelay fatal fatalErr
    fatalValue (some (.plain "bad request")) (some (.plain "bad request"))
    (some (.plain "bad request")) (by decide) (by decide) rfl (by decide) rfl rfl rfl

/-- C3 as stated fails: with `attempts = 2^62` (more than 1), `lastErrorOnly = false` and
the default predicate, the operation returning an `Unrecoverable` error is invoked 0 times:
`Do` panics in `make` before the loop. -/
theorem C3_counterexample :
    hugeConfig.attempts < uintSize ∧ 1 < hugeConfig.attempts ∧
    Do hugeConfig fixedDelay fatal =
      ⟨⟨0, []⟩, .panicked (.makesliceLenOutOfRange 4611686018427387904)⟩ ∧
    (Do hugeConfig fixedDelay fatal).trace.calls ≠ 1 := by
  refine ⟨by decide, by decide, by decide, by decide⟩

/-! ## Runs that end in failure -/

theorem onlyError_failed_run_sleeps (config : Config) (dt : DelayTypeFunc)
    (g : RetryableFuncWithErrOnly) (es : Nat → GoError) (m : Nat)
    (hN : config.attempts < uintSize)
    (hfit : config.lastErrorOnly = false → config.attempts ≤ maxErrorLen)
    (hmN : m + 1 ≤ config.attempts)
    (hfail : ∀ i, i ≤ m → g i = some (es i))
    (hretry : ∀ i, i < m → config.retryIf (es i) = true)
    (hstop : config.retryIf (es m) = false ∨ m + 1 = config.attempts) :
    (Do_returnsOnlyError config dt g).trace.sleeps = (List.range m).map (getDelay dt config) := by
  rw [onlyError_failed_run config dt g es m hN hfit hmN hfail hretry hstop]
  simp only
  rw [sleeps_append (m + 1) 0 0, sleeps_retryRounds, sleeps_lastRound, List.append_nil,
    List.range_eq_range']

theorem logWithNumber_filled (msg : Nat → String) (k : Nat) (us : List GoError)
    (hmsg : ∀ (j : Nat) (e : GoError), us[j]? = some e → e.Error = .ok (msg j)) :
    Error.logWithNumber (us.map some ++ List.replicate k none) =
      .ok ((List.range us.length).map (fun i => numberedLine i (msg i))) := by
  unfold Error.logWithNumber
  rw [lenWithoutNil_filled]
  have := fill_filled msg k us [] (by simpa using hmsg)
  simp only [List.length_nil, List.nil_append] at this
  rw [this, List.range_eq_range']

theorem onlyError_failed_run_render (config : Config) (dt : DelayTypeFunc)
    (g : RetryableFuncWithErrOnly) (m : Nat) (msg : Nat → String)
    (hN : config.attempts < uintSize)
    (hfit : config.lastErrorOnly = false → config.attempts ≤ maxErrorLen)
    (hleo : config.lastErrorOnly = false)
    (hm1 : 1 ≤ m) (hmN : m ≤ config.attempts)
    (hfail : ∀ i, i < m → ∃ e u, g i = some e ∧ unpackUnrecoverable e = some u ∧
      u.Error = .ok (msg i))
    (hretry : ∀ i e, i + 1 < m → g i = some e → config.retryIf e = true)
    (hstop : m = config.attempts ∨ ∃ e, g (m - 1) = some e ∧ config.retryIf e = false) :
    ∃ log,
      (Do_returnsOnlyError config dt g).out = .returned (.aggregate log) ∧
      (Do_returnsOnlyError config dt g).trace.calls = m ∧
      (Do_returnsOnlyError config dt g).trace.sleeps =
        (List.range (m - 1)).map (getDelay dt config) ∧
      Error.logWithNumber log = .ok ((List.range m).map (fun i => numberedLine i (msg i))) ∧
      Error.Error log = .ok ("All attempts fail:\n" ++ String.intercalate "\n"
        ((List.range m).map (fun i => numberedLine i (msg i)))) := by
  have hes : ∀ i, i < m → g i = some (errorsOf g i) := by
    intro i hi
    obtain ⟨e, _, he, _⟩ := hfail i hi
    rw [errorsOf_eq g i e he]; exact he
  have hmm : m - 1 + 1 = m := by omega
  have hfail' : ∀ i, i ≤ m - 1 → g i = some (errorsOf g i) := fun i hi => hes i (by omega)
  have hretry' : ∀ i, i < m - 1 → config.retryIf (errorsOf g i) = true :=
    fun i hi => hretry i _ (by omega) (hes i (by omega))
  have hstop' : config.retryIf (errorsOf g (m - 1)) = false ∨ m - 1 + 1 = config.attempts := by
    rcases hstop with h | ⟨e, he, hr⟩
    · right; omega
    · left; rw [errorsOf_eq g (m - 1) e he]; exact hr
  have hrun := onlyError_failed_run config dt g (errorsOf g) (m - 1) hN hfit (by omega)
    hfail' hretry' hstop'
  have hsl := onlyError_failed_run_sleeps config dt g (errorsOf g) (m - 1) hN hfit (by omega)
    hfail' hretry' hstop'
  let u : Nat → GoError := fun i => (unpackUnrecoverable (errorsOf g i)).getD (.plain "")
  have hu : ∀ i, i < m → unpackUnrecoverable (errorsOf g i) = some (u i) ∧
      (u i).Error = .ok (msg i) := by
    intro i hi
    obtain ⟨e, v, he, hv, hm⟩ := hfail i hi
    have h1 : unpackUnrecoverable (errorsOf g i) = some v := by
      rw [errorsOf_eq g i e he]; exact hv
    have h2 : u i = v := by simp [u, h1]
    rw [h2]
    exact ⟨h1, hm⟩
  have hlist : (List.range (m - 1 + 1)).map (fun i => unpackUnrecoverable (errorsOf g i)) =
      ((List.range m).map u).map some := by
    rw [hmm, List.map_map]
    apply List.map_congr_left
    intro i hi
    exact (hu i (List.mem_range.mp hi)).1
  have hus : ∀ (j : Nat) (e : GoError), ((List.range m).map u)[j]? = some e →
      e.Error = .ok (msg j) := by
    intro j e hj
    simp only [List.getElem?_map] at hj
    by_cases hjm : j < m
    · rw [List.getElem?_range hjm] at hj
      simp only [Option.map_some', Option.some.injEq] at hj
      rw [← hj]
      exact (hu j hjm).2
    · rw [List.getElem?_eq_none (by simpa using Nat.le_of_not_lt hjm)] at hj
      cases hj
  have hlines := logWithNumber_filled msg (config.attempts - (m - 1 + 1))
    ((List.range m).map u) hus
  have hrender := render_filled msg (config.attempts - (m - 1 + 1))
    ((List.range m).map u) hus
  simp only [List.length_map, List.length_range] at hlines hrender
  refine ⟨((List.range m).map u).map some ++
    List.replicate (config.attempts - (m - 1 + 1)) none, ?_, ?_, hsl, hlines, hrender⟩
  · rw [hrun]
    simp only [hleo, Bool.false_eq_true, if_false, hlist]
  · rw [hrun]
    exact hmm

/-- C4 (amended): with `lastErrorOnly = false` and `attempts = N ≥ 1` that `make` accepts
for the error log (`N` at most `maxErrorLen`), when `Do` ends in failure after `m` failed
invocations (`1 ≤ m ≤ N`, by exhaustion or by a veto of the predicate) whose unwrapped
errors are non-nil and have the messages `msg 0 .. msg (m-1)`, the returned error is the
aggregated `Error`, and it renders as `All attempts fail:` followed by the `m` lines
`#1: msg 0` .. `#m: msg (m-1)` in attempt order, with nothing for the attempts never
made. -/
theorem C4_aggregate_rendering (config : Config) (delayType : DelayTypeFunc)
    (f : RetryableFunc) (m : Nat) (msg : Nat → String)
    (hN : config.attempts < uintSize) (hfit : config.attempts ≤ maxErrorLen)
    (hleo : config.lastErrorOnly = false)
    (hm1 : 1 ≤ m) (hmN : m ≤ config.attempts)
    (hfail : ∀ i, i < m → (f i).2.2 = some (.plain (msg i)) ∨
      ∃ inner, (f i).2.2 = some (Unrecoverable (some inner)) ∧ inner.Error = .ok (msg i))
    (hretry : ∀ i e, i + 1 < m → (f i).2.2 = some e → config.retryIf e = true)
    (hstop : m = config.attempts ∨
      ∃ e, (f (m - 1)).2.2 = some e ∧ config.retryIf e = false) :
    (Do config delayType f).trace.calls = m ∧
    ∃ resp status log,
      (Do config delayType f).out = .returned (resp, status, .aggregate log) ∧
      Error.Error log = .ok ("All attempts fail:\n" ++ String.intercalate "\n"
        ((List.range m).map (fun i => "#" ++ toString (i + 1) ++ ": " ++ msg i))) := by
  obtain ⟨log, hout, hcalls, _, _, hrender⟩ := onlyError_failed_run_render config delayType
    (fun i => (f i).2.2) m msg hN (fun _ => hfit) hleo hm1 hmN
    (by
      intro i hi
      rcases hfail i hi with h | ⟨inner, h, hm⟩
      · exact ⟨_, _, h, rfl, rfl⟩
      · exact ⟨_, _, h, rfl, hm⟩)
    hretry hstop
  refine ⟨?_, ?_⟩
  · rw [Do_sim]; exact hcalls
  · rw [Do_sim]
    simp only [hout, Outcome.map]
    exact ⟨_, _, log, rfl, hrender⟩

/-- C4 (amended) at `attempts = 5`: two `busy` failures and then a vetoed `bad request`
render as three numbered lines. -/
theorem C4_aggregate_rendering_witness :
    (Do (exampleConfig 5 false) fixedDelay busyThenFatal).out =
      .returned ("", 400, .aggregate [some (.plain "busy"), some (.plain "busy"),
        some (.plain "bad request"), none, none]) ∧
    Error.Error [some (.plain "busy"), some (.plain "busy"), some (.plain "bad request"),
        none, none] =
      .ok "All attempts fail:\n#1: busy\n#2: busy\n#3: bad request" ∧
    ((Do (exampleConfig 5 false) fixedDelay busyThenFatal).trace.calls = 3 ∧
      ∃ resp status log,
        (Do (exampleConfig 5 false) fixedDelay busyThenFatal).out =
          .returned (resp, status, .aggregate log) ∧
        Error.Error log = .ok ("All attempts fail:\n" ++ String.intercalate "\n"
          ((List.range 3).map
            (fun i => "#" ++ toString (i + 1) ++ ": " ++ busyThenFatalMessage i)))) :=
  ⟨by decide, by decide,
    C4_aggregate_rendering (exampleConfig 5 false) fixedDelay busyThenFatal 3
      busyThenFatalMessage (by decide) (by decide) rfl (by decide) (by decide)
      (fun i hi => by
        by_cases h2 : i < 2
        · exact Or.inl (by simp [busyThenFatal, busyThenFatalMessage, h2])
        · exact Or.inr ⟨.plain "bad request", by simp [busyThenFatal, h2], by
            simp [busyThenFatalMessage, h2, GoError.Error]⟩)
      (fun i e hi he => by
        have h2 : i < 2 := by omega
        simp only [busyThenFatal, h2, if_true, Option.some.injEq] at he
        rw [← he]
        rfl)
      (Or.inr ⟨Unrecoverable (some (.plain "bad request")), by decide, by decide⟩)⟩

/-- C4 as stated fails: with `attempts = 2^62` and `lastErrorOnly = false`, for the
operation that fails twice with `busy` and is then vetoed (`m = 3`), `Do` does not return
an aggregated error: it panics in `make` before the first invocation. -/
theorem C4_counterexample :
    hugeConfig.attempts < uintSize ∧ 3 ≤ hugeConfig.attempts ∧
    Do hugeConfig fixedDelay busyThenFatal =
      ⟨⟨0, []⟩, .panicked (.makesliceLenOutOfRange 4611686018427387904)⟩ ∧
    (Do hugeConfig fixedDelay busyThenFatal).trace.calls ≠ 3 ∧
    ¬ ∃ resp status log,
      (Do hugeConfig fixedDelay busyThenFatal).out = .returned (resp, status, .aggregate log) := by
  refine ⟨by decide, by decide, by decide, by decide, ?_⟩
  rintro ⟨resp, status, log, h⟩
  have hp : (Do hugeConfig fixedDelay busyThenFatal).out =
      .panicked (.makesliceLenOutOfRange 4611686018427387904) := by decide
  rw [hp] at h
  cases h

theorem onlyError_last_error_only (config : Config) (dt : DelayTypeFunc)
    (g : RetryableFuncWithErrOnly) (hN : config.attempts < uintSize)
    (hleo : config.lastErrorOnly = true) (hA : 1 ≤ config.attempts) :
    ∃ e, (Do_returnsOnlyError config dt g).out = .returned e ∧
      1 ≤ (Do_returnsOnlyError config dt g).trace.calls ∧
      (∀ msg, g ((Do_returnsOnlyError config dt g).trace.calls - 1) = some (.plain msg) →
        e = .single (.plain msg)) ∧
      (∀ inner, g ((Do_returnsOnlyError config dt g).trace.calls - 1) =
          some (Unrecoverable (some inner)) → e = .single inner) ∧
      (g ((Do_returnsOnlyError config dt g).trace.calls - 1) = some (Unrecoverable none) →
        e = .nil) := by
  have hfit : config.lastErrorOnly = false → config.attempts ≤ maxErrorLen := by
    intro h; rw [hleo] at h; cases h
  rcases onlyError_run_cases config dt g hN hfit with
    ⟨k, _, hk, hrun⟩ | ⟨m, _, hm, hrun⟩ | ⟨hz, _⟩
  · rw [hrun]
    refine ⟨.nil, rfl, by simp, ?_, ?_, ?_⟩ <;>
      simp only [Nat.add_sub_cancel, hk] <;> intros <;> contradiction
  · rw [hrun]
    have hgm : g m = some (errorsOf g m) := hm m (Nat.le_refl m)
    refine ⟨_, rfl, by simp, ?_, ?_, ?_⟩
    · intro msg h
      simp only [Nat.add_sub_cancel] at h
      have he : errorsOf g m = .plain msg := errorsOf_eq g m _ h
      simp [hleo, he, unpackUnrecoverable, RetError.ofSlot]
    · intro inner h
      simp only [Nat.add_sub_cancel] at h
      have he : errorsOf g m = Unrecoverable (some inner) := errorsOf_eq g m _ h
      simp [hleo, he, unpackUnrecoverable_wrapped, RetError.ofSlot]
    · intro h
      simp only [Nat.add_sub_cancel] at h
      have he : errorsOf g m = Unrecoverable none := errorsOf_eq g m _ h
      simp [hleo, he, unpackUnrecoverable_wrapped, RetError.ofSlot]
  · omega

/-- C5: with `lastErrorOnly = true` and `attempts ≥ 1`, each of `Do`,
`Do_returnsOnlyError` and `Do_returnsValueAndError` returns after at least one
invocation, and when the last invocation failed the returned error is exactly the
unwrapped error of that last invocation: the error itself when it is not wrapped, the
embedded error when it is `Unrecoverable(inner)`, and nil when it is
`Unrecoverable(nil)`; it is never the aggregate and never the error of an earlier
attempt. -/
theorem C5_last_error_only_returns_last_error (config : Config) (delayType : DelayTypeFunc)
    (f : RetryableFunc) (g : RetryableFuncWithErrOnly) (h : RetryableFuncWithValueAndErr)
    (hN : config.attempts < uintSize) (hleo : config.lastErrorOnly = true)
    (hA : 1 ≤ config.attempts) :
    (∃ resp status e, (Do config delayType f).out = .returned (resp, status, e) ∧
      1 ≤ (Do config delayType f).trace.calls ∧
      (∀ msg, (f ((Do config delayType f).trace.calls - 1)).2.2 = some (.plain msg) →
        e = .single (.plain msg)) ∧
      (∀ inner, (f ((Do config delayType f).trace.calls - 1)).2.2 =
          some (Unrecoverable (some inner)) → e = .single inner) ∧
      ((f ((Do config delayType f).trace.calls - 1)).2.2 = some (Unrecoverable none) →
        e = .nil)) ∧
    (∃ e, (Do_returnsOnlyError config delayType g).out = .returned e ∧
      1 ≤ (Do_returnsOnlyError config delayType g).trace.calls ∧
      (∀ msg, g ((Do_returnsOnlyError config delayType g).trace.calls - 1) =
          some (.plain msg) → e = .single (.plain msg)) ∧
      (∀ inner, g ((Do_returnsOnlyError config delayType g).trace.calls - 1) =
          some (Unrecoverable (some inner)) → e = .single inner) ∧
      (g ((Do_returnsOnlyError config delayType g).trace.calls - 1) =
          some (Unrecoverable none) → e = .nil)) ∧
    (∃ value e, (Do_returnsValueAndError config delayType h).out = .returned (value, e) ∧
      1 ≤ (Do_returnsValueAndError config delayType h).trace.calls ∧
      (∀ msg, (h ((Do_returnsValueAndError config delayType h).trace.calls - 1)).2 =
          some (.plain msg) → e = .single (.plain msg)) ∧
      (∀ inner, (h ((Do_returnsValueAndError config delayType h).trace.calls - 1)).2 =
          some (Unrecoverable (some inner)) → e = .single inner) ∧
      ((h ((Do_returnsValueAndError config delayType h).trace.calls - 1)).2 =
          some (Unrecoverable none) → e = .nil)) := by
  obtain ⟨e1, o1, c1, p1, q1, r1⟩ :=
    onlyError_last_error_only config delayType (fun i => (f i).2.2) hN hleo hA
  obtain ⟨e3, o3, c3, p3, q3, r3⟩ :=
    onlyError_last_error_only config delayType (fun i => (h i).2) hN hleo hA
  refine ⟨?_, onlyError_last_error_only config delayType g hN hleo hA, ?_⟩
  · rw [Do_sim]
    simp only [o1, Outcome.map]
    exact ⟨_, _, e1, rfl, c1, p1, q1, r1⟩
  · rw [valueAndError_sim]
    simp only [o3, Outcome.map]
    exact ⟨_, e3, rfl, c3, p3, q3, r3⟩

/-- C5 at `attempts = 5`, `lastErrorOnly = true`: after two `busy` failures and a vetoed
`Unrecoverable(bad request)`, `Do` returns the single unwrapped error `bad request`; after
five `boom` failures `Do_returnsValueAndError` returns the single error `boom`. -/
theorem C5_last_error_only_returns_last_error_witness :
    Do (exampleConfig 5 true) fixedDelay busyThenFatal =
      ⟨⟨3, [.invoke, .onRetry 0 (.plain "busy"), .sleep second,
            .invoke, .onRetry 1 (.plain "busy"), .sleep second, .invoke]⟩,
        .returned ("", 400, .single (.plain "bad request"))⟩ ∧
    (Do_returnsOnlyError (exampleConfig 5 true) fixedDelay fatalErr).out =
      .returned (.single (.plain "bad request")) ∧
    (Do_returnsValueAndError (exampleConfig 5 true) fixedDelay alwaysBoomValue).out =
      .returned ("", .single (.plain "boom")) ∧
    (∃ resp status e,
      (Do (exampleConfig 5 true) fixedDelay busyThenFatal).out = .returned (resp, status, e) ∧
      1 ≤ (Do (exampleConfig 5 true) fixedDelay busyThenFatal).trace.calls ∧
      ((busyThenFatal ((Do (exampleConfig 5 true) fixedDelay busyThenFatal).trace.calls
          - 1)).2.2 = some (Unrecoverable (some (.plain "bad request"))) →
        e = .single (.plain "bad request"))) := by
  refine ⟨by decide, by decide, by decide, ?_⟩
  obtain ⟨⟨resp, status, e, h1, h2, _, h4, _⟩, _, _⟩ :=
    C5_last_error_only_returns_last_error (exampleConfig 5 true) fixedDelay busyThenFatal
      fatalErr alwaysBoomValue (by decide) rfl (by decide)
  exact ⟨resp, status, e, h1, h2, h4 (.plain "bad request")⟩

/-- C6 (amended): for an operation that always fails with an error the predicate accepts
and `attempts = N ≥ 1` that `make` accepts for the error log (`lastErrorOnly = true`, or
`N` at most `maxErrorLen`), the run of `Do` is, in this order: for each attempt
`n = 0 .. N-2` the invocation, the call `onRetry(n, err)` and the sleep of
`getDelay(config, n)`; then the final invocation and its call of `onRetry`, with no sleep
after it. So `Do` sleeps exactly `N-1` times, and `getDelay` is `maxDelay` when
`maxDelay > 0` and the delay strategy's value exceeds it, and the delay strategy's value
otherwise. -/
theorem C6_sleeps_between_attempts (config : Config) (delayType : DelayTypeFunc)
    (f : RetryableFunc) (es : Nat → GoError)
    (hN : config.attempts < uintSize)
    (hfit : config.lastErrorOnly = false → config.attempts ≤ maxErrorLen)
    (hA : 1 ≤ config.attempts)
    (hf : ∀ i, (f i).2.2 = some (es i) ∧ config.retryIf (es i) = true) :
    (Do config delayType f).trace.events =
      (List.range (config.attempts - 1)).flatMap
        (fun n => [Event.invoke, Event.onRetry n (es n),
          Event.sleep (getDelay delayType config n)]) ++
      [Event.invoke, Event.onRetry (config.attempts - 1) (es (config.attempts - 1))] ∧
    (Do config delayType f).trace.sleeps =
      (List.range (config.attempts - 1)).map (getDelay delayType config) ∧
    (Do config delayType f).trace.sleeps.length = config.attempts - 1 ∧
    ∀ n, getDelay delayType config n =
      if config.maxDelay > 0 ∧ delayType n config > config.maxDelay then config.maxDelay
      else delayType n config := by
  have hev := onlyError_always_failing config delayType (fun i => (f i).2.2) es hN hfit hA hf
  have hsl := onlyError_failed_run_sleeps config delayType (fun i => (f i).2.2) es
    (config.attempts - 1) hN hfit (by omega) (fun i _ => (hf i).1) (fun i _ => (hf i).2)
    (Or.inr (by omega))
  refine ⟨?_, ?_, ?_, fun n => rfl⟩
  · rw [Do_sim, hev]
  · rw [Do_sim]; exact hsl
  · rw [Do_sim]
    simp only [hsl, List.length_map, List.length_range]

/-- C6 (amended) at `attempts = 4`, base delay 10s doubling per attempt, ceiling 15s: the
sleeps are 10s, 15s and 15s, one after each of the first three attempts and none after
the fourth. -/
theorem C6_sleeps_between_attempts_witness :
    (Do cappedConfig doublingDelay alwaysBoom).trace.events =
      [.invoke, .onRetry 0 (.plain "boom"), .sleep (10 * second),
       .invoke, .onRetry 1 (.plain "boom"), .sleep (15 * second),
       .invoke, .onRetry 2 (.plain "boom"), .sleep (15 * second),
       .invoke, .onRetry 3 (.plain "boom")] ∧
    ((Do cappedConfig doublingDelay alwaysBoom).trace.events =
      (List.range (cappedConfig.attempts - 1)).flatMap
        (fun n => [Event.invoke, Event.onRetry n (GoError.plain "boom"),
          Event.sleep (getDelay doublingDelay cappedConfig n)]) ++
      [Event.invoke, Event.onRetry (cappedConfig.attempts - 1) (GoError.plain "boom")] ∧
    (Do cappedConfig doublingDelay alwaysBoom).trace.sleeps =
      (List.range (cappedConfig.attempts - 1)).map (getDelay doublingDelay cappedConfig) ∧
    (Do cappedConfig doublingDelay alwaysBoom).trace.sleeps.length =
      cappedConfig.attempts - 1 ∧
    ∀ n, getDelay doublingDelay cappedConfig n =
      if cappedConfig.maxDelay > 0 ∧ doublingDelay n cappedConfig > cappedConfig.maxDelay
      then cappedConfig.maxDelay else doublingDelay n cappedConfig) :=
  ⟨by decide,
    C6_sleeps_between_attempts cappedConfig doublingDelay alwaysBoom
      (fun _ => GoError.plain "boom") (by decide) (by decide) (by decide)
      (fun _ => ⟨rfl, rfl⟩)⟩

/-- C6 as stated fails: with `attempts = 2^62` and `lastErrorOnly = false`, `Do` panics in
`make` before the loop, so for the always-failing operation it sleeps 0 times, not
`2^62 - 1` times. -/
theorem C6_counterexample :
    hugeConfig.attempts < uintSize ∧ 1 ≤ hugeConfig.attempts ∧
    Do hugeConfig fixedDelay alwaysBoom =
      ⟨⟨0, []⟩, .panicked (.makesliceLenOutOfRange 4611686018427387904)⟩ ∧
    (Do hugeConfig fixedDelay alwaysBoom).trace.sleeps = [] ∧
    (Do hugeConfig fixedDelay alwaysBoom).trace.sleeps.length ≠ hugeConfig.attempts - 1 := by
  refine ⟨by decide, by decide, by decide, by decide, by decide⟩

theorem onlyError_failure_shape (config : Config) (dt : DelayTypeFunc)
    (g : RetryableFuncWithErrOnly) (hN : config.attempts < uintSize)
    (hfit : config.lastErrorOnly = false → config.attempts ≤ maxErrorLen)
    (hfailed : (Do_returnsOnlyError config dt g).trace.calls = 0 ∨
      g ((Do_returnsOnlyError config dt g).trace.calls - 1) ≠ none) :
    ∃ e, (Do_returnsOnlyError config dt g).out = .returned e ∧
      (config.lastErrorOnly = true →
        ((Do_returnsOnlyError config dt g).trace.calls = 0 → e = .nil) ∧
        (0 < (Do_returnsOnlyError config dt g).trace.calls →
          (∀ msg, g ((Do_returnsOnlyError config dt g).trace.calls - 1) = some (.plain msg) →
            e = .single (.plain msg)) ∧
          (∀ x, g ((Do_returnsOnlyError config dt g).trace.calls - 1) =
            some (Unrecoverable x) → e = RetError.ofSlot x))) ∧
      (config.lastErrorOnly = false →
        ∃ log, e = .aggregate log ∧ log.length = config.attempts ∧
          (∀ j, j < (Do_returnsOnlyError config dt g).trace.calls →
            (∀ msg, g j = some (.plain msg) → log[j]? = some (some (.plain msg))) ∧
            (∀ x, g j = some (Unrecoverable x) → log[j]? = some x)) ∧
          (∀ j, (Do_returnsOnlyError config dt g).trace.calls ≤ j → j < config.attempts →
            log[j]? = some none)) := by
  rcases onlyError_run_cases config dt g hN hfit with
    ⟨k, _, hk, hrun⟩ | ⟨m, hmN, _, hrun⟩ | ⟨hz, hrun⟩
  · rw [hrun] at hfailed
    simp only [Nat.add_sub_cancel, hk] at hfailed
    rcases hfailed with h | h
    · omega
    · exact absurd rfl h
  · rw [hrun]
    refine ⟨_, rfl, ?_, ?_⟩
    · intro hleo
      refine ⟨by intro h; simp at h, fun _ => ⟨?_, ?_⟩⟩
      · intro msg h
        simp only [Nat.add_sub_cancel] at h
        simp [hleo, errorsOf_eq g m _ h, unpackUnrecoverable, RetError.ofSlot]
      · intro x h
        simp only [Nat.add_sub_cancel] at h
        simp [hleo, errorsOf_eq g m _ h, unpackUnrecoverable_wrapped]
    · intro hleo
      refine ⟨(List.range (m + 1)).map (fun i => unpackUnrecoverable (errorsOf g i)) ++
        List.replicate (config.attempts - (m + 1)) none, by simp [hleo], by simp; omega,
        ?_, ?_⟩
      · intro j hj
        have hj' : j < m + 1 := hj
        have hget : ((List.range (m + 1)).map (fun i => unpackUnrecoverable (errorsOf g i)) ++
            List.replicate (config.attempts - (m + 1)) none)[j]? =
            some (unpackUnrecoverable (errorsOf g j)) := by
          rw [List.getElem?_append_left (by simpa using hj')]
          simp [List.getElem?_range hj']
        refine ⟨?_, ?_⟩
        · intro msg h
          rw [hget, errorsOf_eq g j _ h]
          rfl
        · intro x h
          rw [hget, errorsOf_eq g j _ h, unpackUnrecoverable_wrapped]
      · intro j hj hjN
        have hj' : m + 1 ≤ j := hj
        rw [List.getElem?_append_right (by simpa using hj')]
        have : j - (m + 1) < config.attempts - (m + 1) := by omega
        simp [List.getElem?_replicate, this]
  · rw [hrun]
    refine ⟨_, rfl, ?_, ?_⟩
    · intro hleo
      exact ⟨fun _ => by simp [hleo], fun h => absurd h (Nat.lt_irrefl 0)⟩
    · intro hleo
      refine ⟨[], by simp [hleo], by simp [hz], ?_, ?_⟩
      · intro j hj
        exact absurd hj (Nat.not_lt_zero j)
      · intro j _ hjN
        omega

/-- C7 (amended): in a configuration whose error log `make` accepts, whenever a call
finishes without a successful invocation (no invocation was made, or the last one
failed): `Do_returnsValueAndError` returns the empty string as payload; `Do` returns the
empty string and the status -1 when it made no invocation; and the error returned is,
under `lastErrorOnly`, the unwrapped error of the last invocation (nil when nothing was
invoked), and otherwise the aggregated `Error` of length `attempts` whose slot `j` holds the
unwrapped error of invocation `j` for every invocation made and nil for the others. -/
theorem C7_failure_return_values (config : Config) (delayType : DelayTypeFunc)
    (f : RetryableFunc) (g : RetryableFuncWithErrOnly) (h : RetryableFuncWithValueAndErr)
    (hN : config.attempts < uintSize)
    (hfit : config.lastErrorOnly = false → config.attempts ≤ maxErrorLen) :
    (((Do config delayType f).trace.calls = 0 ∨
        (f ((Do config delayType f).trace.calls - 1)).2.2 ≠ none) →
      ∃ resp status e, (Do config delayType f).out = .returned (resp, status, e) ∧
        ((Do config delayType f).trace.calls = 0 → resp = "" ∧ status = -1) ∧
        (config.lastErrorOnly = true →
          ((Do config delayType f).trace.calls = 0 → e = .nil) ∧
          (0 < (Do config delayType f).trace.calls →
            (∀ msg, (f ((Do config delayType f).trace.calls - 1)).2.2 = some (.plain msg) →
              e = .single (.plain msg)) ∧
            (∀ x, (f ((Do config delayType f).trace.calls - 1)).2.2 =
              some (Unrecoverable x) → e = RetError.ofSlot x))) ∧
        (config.lastErrorOnly = false →
          ∃ log, e = .aggregate log ∧ log.length = config.attempts ∧
            (∀ j, j < (Do config delayType f).trace.calls →
              (∀ msg, (f j).2.2 = some (.plain msg) → log[j]? = some (some (.plain msg))) ∧
              (∀ x, (f j).2.2 = some (Unrecoverable x) → log[j]? = some x)) ∧
            (∀ j, (Do config delayType f).trace.calls ≤ j → j < config.attempts →
              log[j]? = some none))) ∧
    (((Do_returnsOnlyError config delayType g).trace.calls = 0 ∨
        g ((Do_returnsOnlyError config delayType g).trace.calls - 1) ≠ none) →
      ∃ e, (Do_returnsOnlyError config delayType g).out = .returned e ∧
        (config.lastErrorOnly = true →
          ((Do_returnsOnlyError config delayType g).trace.calls = 0 → e = .nil) ∧
          (0 < (Do_returnsOnlyError config delayType g).trace.calls →
            (∀ msg, g ((Do_returnsOnlyError config delayType g).trace.calls - 1) =
              some (.plain msg) → e = .single (.plain msg)) ∧
            (∀ x, g ((Do_returnsOnlyError config delayType g).trace.calls - 1) =
              some (Unrecoverable x) → e = RetError.ofSlot x))) ∧
        (config.lastErrorOnly = false →
          ∃ log, e = .aggregate log ∧ log.length = config.attempts ∧
            (∀ j, j < (Do_returnsOnlyError config delayType g).trace.calls →
              (∀ msg, g j = some (.plain msg) → log[j]? = some (some (.plain msg))) ∧
              (∀ x, g j = some (Unrecoverable x) → log[j]? = some x)) ∧
            (∀ j, (Do_returnsOnlyError config delayType g).trace.calls ≤ j →
              j < config.attempts → log[j]? = some none))) ∧
    (((Do_returnsValueAndError config delayType h).trace.calls = 0 ∨
        (h ((Do_returnsValueAndError config delayType h).trace.calls - 1)).2 ≠ none) →
      ∃ e, (Do_returnsValueAndError config delayType h).out = .returned ("", e) ∧
        (config.lastErrorOnly = true →
          ((Do_returnsValueAndError config delayType h).trace.calls = 0 → e = .nil) ∧
          (0 < (Do_returnsValueAndError config delayType h).trace.calls →
            (∀ msg, (h ((Do_returnsValueAndError config delayType h).trace.calls - 1)).2 =
              some (.plain msg) → e = .single (.plain msg)) ∧
            (∀ x, (h ((Do_returnsValueAndError config delayType h).trace.calls - 1)).2 =
              some (Unrecoverable x) → e = RetError.ofSlot x))) ∧
        (config.lastErrorOnly = false →
          ∃ log, e = .aggregate log ∧ log.length = config.attempts ∧
            (∀ j, j < (Do_returnsValueAndError config delayType h).trace.calls →
              (∀ msg, (h j).2 = some (.plain msg) → log[j]? = some (some (.plain msg))) ∧
              (∀ x, (h j).2 = some (Unrecoverable x) → log[j]? = some x)) ∧
            (∀ j, (Do_returnsValueAndError config delayType h).trace.calls ≤ j →
              j < config.attempts → log[j]? = some none))) := by
  refine ⟨?_, ?_, ?_⟩
  · rw [Do_trace, Do_out]
    intro hfailed
    obtain ⟨e, ho, hs⟩ :=
      onlyError_failure_shape config delayType (fun i => (f i).2.2) hN hfit hfailed
    refine ⟨(lastPayload f 0 "" (-1) (Do_returnsOnlyError config delayType
        (fun i => (f i).2.2)).trace.calls).1,
      (lastPayload f 0 "" (-1) (Do_returnsOnlyError config delayType
        (fun i => (f i).2.2)).trace.calls).2, e, by simp only [ho, Outcome.map], ?_, hs⟩
    intro hc
    simp [lastPayload, hc]
  · intro hfailed
    exact onlyError_failure_shape config delayType g hN hfit hfailed
  · rw [valueAndError_trace, valueAndError_out]
    intro hfailed
    obtain ⟨e, ho, hs⟩ :=
      onlyError_failure_shape config delayType (fun i => (h i).2) hN hfit hfailed
    refine ⟨e, ?_, hs⟩
    simp only [ho, Outcome.map, lastValue]
    have hno : ¬ (0 < (Do_returnsOnlyError config delayType (fun i => (h i).2)).trace.calls ∧
        (h ((Do_returnsOnlyError config delayType (fun i => (h i).2)).trace.calls - 1)).2 =
          none) := by
      rintro ⟨h1, h2⟩
      rcases hfailed with h3 | h3
      · omega
      · exact h3 h2
    simp [hno]

/-- C7 (amended) at `attempts = 5`, for the operation that returns the payload `partial`
with two `busy` errors and then with `Unrecoverable(bad request)`:
`Do_returnsValueAndError` returns the empty string with the aggregated error, whose slot 2
holds the unwrapped error `bad request` and whose slots 3 and 4 are nil. -/
theorem C7_failure_return_values_witness :
    Do_returnsValueAndError (exampleConfig 5 false) fixedDelay busyThenFatalValue =
      ⟨⟨3, [.invoke, .onRetry 0 (.plain "busy"), .sleep second,
            .invoke, .onRetry 1 (.plain "busy"), .sleep second, .invoke]⟩,
        .returned ("", .aggregate
          [some (.plain "busy"), some (.plain "busy"), some (.plain "bad request"),
            none, none])⟩ ∧
    (∃ e log, (Do_returnsValueAndError (exampleConfig 5 false) fixedDelay
        busyThenFatalValue).out = .returned ("", e) ∧
      e = .aggregate log ∧ log.length = 5 ∧
      log[2]? = some (some (.plain "bad request")) ∧ log[3]? = some none) := by
  have hc : (Do_returnsValueAndError (exampleConfig 5 false) fixedDelay
      busyThenFatalValue).trace.calls = 3 := by decide
  refine ⟨by decide, ?_⟩
  obtain ⟨e, h1, _, h3⟩ := (C7_failure_return_values (exampleConfig 5 false) fixedDelay
    busyThenFatal fatalErr busyThenFatalValue (by decide) (by decide)).2.2
    (Or.inr (by rw [hc]; decide))
  obtain ⟨log, h4, h5, h6, h7⟩ := h3 rfl
  exact ⟨e, log, h1, h4, h5,
    (h6 2 (by rw [hc]; decide)).2 (some (.plain "bad request")) rfl,
    h7 3 (Nat.le_of_eq hc) (by decide)⟩

/-- C7 as stated fails: with `attempts = 1`, `Do` returns the payload `body` and the status
500 of the failed invocation, not the zero values; and with `attempts = 0` it returns the
status -1. -/
theorem C7_counterexample :
    (Do (exampleConfig 1 false) fixedDelay alwaysBoom).out =
      .returned ("body", 500, .aggregate [some (.plain "boom")]) ∧
    (Do (exampleConfig 0 false) fixedDelay alwaysBoom).out =
      .returned ("", -1, .aggregate []) ∧
    ¬ ∃ e, (Do (exampleConfig 1 false) fixedDelay alwaysBoom).out = .returned ("", 0, e) := by
  refine ⟨by decide, by decide, ?_⟩
  rintro ⟨e, he⟩
  have h1 : (Do (exampleConfig 1 false) fixedDelay alwaysBoom).out =
      .returned ("body", 500, .aggregate [some (.plain "boom")]) := by decide
  rw [h1] at he
  have h2 : "body" = "" := (Prod.mk.inj (Outcome.returned.inj he)).1
  exact absurd h2 (by decide)

theorem numberedLine_one (msg : String) : numberedLine 0 msg = "#1: " ++ msg := by
  have h : "#" ++ toString (0 + 1) ++ ": " = "#1: " := by decide
  unfold numberedLine
  rw [h]

theorem numberedLine_two (msg : String) : numberedLine 1 msg = "#2: " ++ msg := by
  have h : "#" ++ toString (1 + 1) ++ ": " = "#2: " := by decide
  unfold numberedLine
  rw [h]

theorem numberedLine_three (msg : String) : numberedLine 2 msg = "#3: " ++ msg := by
  have h : "#" ++ toString (2 + 1) ++ ": " = "#3: " := by decide
  unfold numberedLine
  rw [h]

/-- C8 (amended): with `attempts = 3`, `lastErrorOnly = false` and an operation that
always fails with a plain error the predicate accepts, `Do` makes three invocations and
two sleeps, and the error it returns renders three numbered lines, `#1: ...`, `#2: ...`
and `#3: ...`, after the header: the third failure is recorded and rendered too. -/
theorem C8_three_failures_render_three_lines (config : Config) (delayType : DelayTypeFunc)
    (f : RetryableFunc) (msg : Nat → String)
    (hA : config.attempts = 3) (hleo : config.lastErrorOnly = false)
    (hf : ∀ i, (f i).2.2 = some (.plain (msg i)) ∧ config.retryIf (.plain (msg i)) = true) :
    (Do config delayType f).trace.calls = 3 ∧
    (Do config delayType f).trace.sleeps.length = 2 ∧
    ∃ resp status log,
      (Do config delayType f).out = .returned (resp, status, .aggregate log) ∧
      Error.logWithNumber log = .ok ["#1: " ++ msg 0, "#2: " ++ msg 1, "#3: " ++ msg 2] ∧
      Error.Error log = .ok ("All attempts fail:\n" ++
        String.intercalate "\n" ["#1: " ++ msg 0, "#2: " ++ msg 1, "#3: " ++ msg 2]) := by
  have hN : config.attempts < uintSize := by rw [hA]; decide
  have hfit : config.lastErrorOnly = false → config.attempts ≤ maxErrorLen := by
    intro _; rw [hA]; decide
  obtain ⟨log, hout, hcalls, hsleeps, hlines, hrender⟩ :=
    onlyError_failed_run_render config delayType (fun i => (f i).2.2) 3 msg hN hfit hleo
      (by decide) (by omega)
      (by intro i _; exact ⟨_, _, (hf i).1, rfl, rfl⟩)
      (by
        intro i e _ he
        simp only [(hf i).1] at he
        cases he
        exact (hf i).2)
      (Or.inl hA.symm)
  have hlist : (List.range 3).map (fun i => numberedLine i (msg i)) =
      ["#1: " ++ msg 0, "#2: " ++ msg 1, "#3: " ++ msg 2] := by
    rw [← numberedLine_one, ← numberedLine_two, ← numberedLine_three]
    rfl
  rw [hlist] at hlines hrender
  refine ⟨?_, ?_, ?_⟩
  · rw [Do_trace]; exact hcalls
  · rw [Do_trace, hsleeps]; rfl
  · rw [Do_out]
    simp only [hout, Outcome.map]
    exact ⟨_, _, log, rfl, hlines, hrender⟩

/-- C8 (amended) in the scenario of the claim: `attempts = 3`, base delay 1s, no jitter,
every invocation failing with the plain error `boom`. -/
theorem C8_three_failures_render_three_lines_witness :
    (Do (exampleConfig 3 false) fixedDelay alwaysBoom).trace.calls = 3 ∧
    (Do (exampleConfig 3 false) fixedDelay alwaysBoom).trace.sleeps.length = 2 ∧
    ∃ resp status log,
      (Do (exampleConfig 3 false) fixedDelay alwaysBoom).out =
        .returned (resp, status, .aggregate log) ∧
      Error.logWithNumber log = .ok ["#1: " ++ "boom", "#2: " ++ "boom", "#3: " ++ "boom"] ∧
      Error.Error log = .ok ("All attempts fail:\n" ++
        String.intercalate "\n" ["#1: " ++ "boom", "#2: " ++ "boom", "#3: " ++ "boom"]) :=
  C8_three_failures_render_three_lines (exampleConfig 3 false) fixedDelay alwaysBoom
    (fun _ => "boom") rfl rfl (fun _ => ⟨rfl, rfl⟩)

/-- C8 as stated fails: in the scenario `attempts = 3`, `lastErrorOnly = false`, base delay
1s, no jitter, every invocation failing with the plain error `boom`, the error returned by
`Do` renders the three numbered lines `#1: boom`, `#2: boom`, `#3: boom`, not two. -/
theorem C8_counterexample :
    (Do (exampleConfig 3 false) fixedDelay alwaysBoom).out =
      .returned ("body", 500, .aggregate
        [some (.plain "boom"), some (.plain "boom"), some (.plain "boom")]) ∧
    Error.logWithNumber [some (.plain "boom"), some (.plain "boom"), some (.plain "boom")] =
      .ok ["#1: boom", "#2: boom", "#3: boom"] ∧
    Error.Error [some (.plain "boom"), some (.plain "boom"), some (.plain "boom")] =
      .ok "All attempts fail:\n#1: boom\n#2: boom\n#3: boom" ∧
    Error.Error [some (.plain "boom"), some (.plain "boom"), some (.plain "boom")] ≠
      .ok "All attempts fail:\n#1: boom\n#2: boom" := by
  refine ⟨by decide, by decide, by decide, by decide⟩

/-- C9 fails on the code: for the `Error` value with a nil slot followed by a non-nil slot,
`Error.Error` writes `logWithNumber[1]` into a slice of length 1 (`lenWithoutNil`) and
panics with an index out of range, instead of returning the header and the line `#2: x`.
With the nil slot last the rendering is as the claim says. Such a value is also what `Do`
returns when the first error is `Unrecoverable(nil)` and the predicate accepts it. -/
theorem C9_render_nil_before_error_panics :
    lenWithoutNil [none, some (.plain "x")] = 1 ∧
    Error.Error [none, some (.plain "x")] = .error (.indexOutOfRange 1 1) ∧
    Error.Error [some (.plain "x"), none] = .ok "All attempts fail:\n#1: x" ∧
    (Do acceptAllConfig fixedDelay nilThenPlain).out =
      .returned ("", 0, .aggregate [none, some (.plain "x")]) := by
  refine ⟨by decide, by decide, by decide, by decide⟩

/-- C10 (amended): for every configuration whose error log `make` accepts
(`lastErrorOnly = true`, or `attempts` at most `maxErrorLen`) and every operation, `Do`,
`Do_returnsOnlyError` and `Do_returnsValueAndError` return a value: no read or write of
the error log is out of the bounds of the slice built by `createErrorLog` (which would be
a panic), and the loop ends within `config.attempts` iterations. -/
theorem C10_every_run_returns (config : Config) (delayType : DelayTypeFunc)
    (f : RetryableFunc) (g : RetryableFuncWithErrOnly) (h : RetryableFuncWithValueAndErr)
    (hN : config.attempts < uintSize)
    (hfit : config.lastErrorOnly = false → config.attempts ≤ maxErrorLen) :
    (∃ v, (Do config delayType f).out = .returned v) ∧
    (∃ v, (Do_returnsOnlyError config delayType g).out = .returned v) ∧
    (∃ v, (Do_returnsValueAndError config delayType h).out = .returned v) := by
  have hret : ∀ g' : RetryableFuncWithErrOnly,
      ∃ e, (Do_returnsOnlyError config delayType g').out = .returned e := by
    intro g'
    rcases onlyError_run_cases config delayType g' hN hfit with
      ⟨_, _, _, hrun⟩ | ⟨_, _, _, hrun⟩ | ⟨_, hrun⟩ <;>
      rw [hrun] <;> exact ⟨_, rfl⟩
  obtain ⟨e1, h1⟩ := hret (fun i => (f i).2.2)
  obtain ⟨e3, h3⟩ := hret (fun i => (h i).2)
  refine ⟨?_, hret g, ?_⟩
  · rw [Do_out, h1]; exact ⟨_, rfl⟩
  · rw [valueAndError_out, h3]; exact ⟨_, rfl⟩

/-- C10 (amended) at `attempts = 3`: runs that write the error log at every attempt (slot 0
three times under `lastErrorOnly`, slots 0, 1, 2 otherwise) and then read it return. -/
theorem C10_every_run_returns_witness :
    (Do (exampleConfig 3 true) fixedDelay alwaysBoom).out =
      .returned ("body", 500, .single (.plain "boom")) ∧
    (Do_returnsOnlyError (exampleConfig 3 false) fixedDelay alwaysBoomErr).out =
      .returned (.aggregate [some (.plain "boom"), some (.plain "boom"), some (.plain "boom")]) ∧
    ((∃ v, (Do (exampleConfig 3 true) fixedDelay alwaysBoom).out = .returned v) ∧
      (∃ v, (Do_returnsOnlyError (exampleConfig 3 true) fixedDelay alwaysBoomErr).out =
        .returned v) ∧
      (∃ v, (Do_returnsValueAndError (exampleConfig 3 true) fixedDelay alwaysBoomValue).out =
        .returned v)) :=
  ⟨by decide, by decide,
    C10_every_run_returns (exampleConfig 3 true) fixedDelay alwaysBoom alwaysBoomErr
      alwaysBoomValue (by decide) (by decide)⟩

/-- C10 as stated fails: with `attempts = 2^62` (a value of `uint`) and
`lastErrorOnly = false`, `make(Error, config.attempts)` in `createErrorLog` panics with
`makeslice: len out of range`, and none of the three functions returns a value. -/
theorem C10_counterexample :
    hugeConfig.attempts < uintSize ∧
    createErrorLog hugeConfig = .error (.makesliceLenOutOfRange 4611686018427387904) ∧
    (Do hugeConfig fixedDelay alwaysBoom).out =
      .panicked (.makesliceLenOutOfRange 4611686018427387904) ∧
    (Do_returnsOnlyError hugeConfig fixedDelay alwaysBoomErr).out =
      .panicked (.makesliceLenOutOfRange 4611686018427387904) ∧
    (Do_returnsValueAndError hugeConfig fixedDelay alwaysBoomValue).out =
      .panicked (.makesliceLenOutOfRange 4611686018427387904) ∧
    ¬ ∃ v, (Do hugeConfig fixedDelay alwaysBoom).out = .returned v := by
  refine ⟨by decide, by decide, by decide, by decide, by decide, ?_⟩
  rintro ⟨v, hv⟩
  have hp : (Do hugeConfig fixedDelay alwaysBoom).out =
      .panicked (.makesliceLenOutOfRange 4611686018427387904) := by decide
  rw [hp] at hv
  cases hv

end Retry
